import Mathlib

/-!
Verification development for the Zero compiler pipeline
(lexer/parser/module loader/type checker/bytecode compiler/VM).

Shallow embedding of the Rust sources:
  * `src/ast/mod.rs`          → AST data types and `Type` helper methods
  * `src/lexer/token.rs`      → tokens (the lexer itself is not needed here)
  * `src/parser/mod.rs`       → recursive-descent parser (fuel-indexed)
  * `src/module_loader.rs`    → module loader with cycle detection
  * `src/type_checker/mod.rs` → symbol table and type checker
  * `src/compiler/mod.rs`     → single-pass bytecode compiler
  * the bytecode data types (`Chunk`/`OpCode`/`Value`) and the VM are not
    present in the sources and are modelled from the specification where a
    theorem needs them (each such definition is marked `Modelled from the
    spec:`).

Conventions:
  * Rust `i64` is modelled as `Int`, `f64` as an opaque bit pattern `F64`
    (no claim exercises floating-point arithmetic).
  * `HashMap` is modelled as an association list with insert-replaces
    semantics; `Vec` as `List` in the same element order.
  * Functions whose Rust originals recurse through the token stream or
    through the symbol table take an explicit fuel argument; `Res.div`
    reports fuel exhaustion (i.e. the Rust original would still be
    running/diverging at that recursion depth).
-/

set_option maxHeartbeats 4000000
set_option maxRecDepth 4000

namespace ZeroLang

/-- Result of running an embedded stateful computation: `div` marks fuel
exhaustion (the Rust original is still recursing at that depth), `err` an
error propagated by `?`/`return Err`, `ok` a normal result. -/
inductive Res (ε α : Type) : Type where
  | div : Res ε α
  | err : ε → Res ε α
  | ok : α → Res ε α
deriving Repr

def Res.bind : Res ε α → (α → Res ε β) → Res ε β
  | .div, _ => .div
  | .err e, _ => .err e
  | .ok a, f => f a

instance : Monad (Res ε) where
  pure := Res.ok
  bind := Res.bind

/-- True exactly on a successful result. -/
def Res.isOk : Res ε α → Bool
  | .ok _ => true
  | _ => false

/-- Association-list lookup, modelling `HashMap::get`. -/
def alistGet [BEq κ] (m : List (κ × α)) (k : κ) : Option α :=
  match m with
  | [] => none
  | (k2, v) :: rest => if k2 == k then some v else alistGet rest k

/-- Association-list insert, modelling `HashMap::insert` (replaces an
existing binding, otherwise appends). -/
def alistInsert [BEq κ] (m : List (κ × α)) (k : κ) (v : α) : List (κ × α) :=
  match m with
  | [] => [(k, v)]
  | (k2, v2) :: rest =>
      if k2 == k then (k2, v) :: rest else (k2, v2) :: alistInsert rest k v

/-- Opaque carrier for Rust `f64` (bit pattern); no claim in this
development exercises floating-point arithmetic. -/
structure F64 where
  bits : Nat
deriving Repr, DecidableEq

/-! ## AST (`src/ast/mod.rs`) -/

/-- `ast::Visibility`. -/
inductive Visibility : Type where
  | Public : Visibility
  | Private : Visibility
deriving Repr, DecidableEq

/-- `ast::Type` (named `Ty` because `Type` is reserved in Lean).  The
payloads of `Function` and `Struct` are flattened into the constructor
(`ast::FunctionType` is `params`/`return_type`, `ast::StructType` is
`name`/`fields`, an `ast::StructField` is `name`/`field_type`); the three
record types are defined below as pair types with the same accessors. -/
inductive Ty : Type where
  | Int : Ty
  | Float : Ty
  | String : Ty
  | Bool : Ty
  | Char : Ty
  | Void : Ty
  | Null : Ty
  | Array : Ty → Ty
  | Function : List Ty → Ty → Ty
  | Struct : String → List (String × Ty) → Ty
  | Named : String → Ty
  | Unknown : Ty

/-- `ast::StructField` as the pair `(name, field_type)`. -/
def StructField : Type := String × Ty

def StructField.mk (name : String) (fieldType : Ty) : StructField := (name, fieldType)

def StructField.name (f : StructField) : String := f.1

def StructField.fieldType (f : StructField) : Ty := f.2

/-- `ast::StructType` as the pair `(name, fields)`. -/
def StructType : Type := String × List StructField

def StructType.mk (name : String) (fields : List StructField) : StructType :=
  (name, fields)

def StructType.name (s : StructType) : String := s.1

def StructType.fields (s : StructType) : List StructField := s.2

/-- `ast::FunctionType` as the pair `(params, return_type)`. -/
def FunctionType : Type := List Ty × Ty

def FunctionType.mk (params : List Ty) (returnType : Ty) : FunctionType :=
  (params, returnType)

def FunctionType.params (f : FunctionType) : List Ty := f.1

def FunctionType.returnType (f : FunctionType) : Ty := f.2

/-- `Ty.Struct` from an `ast::StructType` value. -/
def Ty.StructOf (s : StructType) : Ty := .Struct s.1 s.2

/-- `Ty.Function` from an `ast::FunctionType` value. -/
def Ty.FunctionOf (f : FunctionType) : Ty := .Function f.1 f.2

mutual
/-- Structural equality on types, mirroring the derived `PartialEq` used by
`==`/`!=` in the Rust sources. -/
def tyBeq : Ty → Ty → Bool
  | .Int, .Int => true
  | .Float, .Float => true
  | .String, .String => true
  | .Bool, .Bool => true
  | .Char, .Char => true
  | .Void, .Void => true
  | .Null, .Null => true
  | .Array a, .Array b => tyBeq a b
  | .Function ps r, .Function qs s => tyListBeq ps qs && tyBeq r s
  | .Struct n fs, .Struct m gs => n == m && fieldListBeq fs gs
  | .Named a, .Named b => a == b
  | .Unknown, .Unknown => true
  | _, _ => false

def tyListBeq : List Ty → List Ty → Bool
  | [], [] => true
  | a :: as, b :: bs => tyBeq a b && tyListBeq as bs
  | _, _ => false

def fieldListBeq : List (String × Ty) → List (String × Ty) → Bool
  | [], [] => true
  | (n, a) :: as, (m, b) :: bs => n == m && tyBeq a b && fieldListBeq as bs
  | _, _ => false
end

/-- `PartialEq` on `ast::StructType` values. -/
def structTyBeq (a b : StructType) : Bool :=
  a.1 == b.1 && fieldListBeq a.2 b.2

/-- `Type::is_numeric`. -/
def tyIsNumeric : Ty → Bool
  | .Int => true
  | .Float => true
  | _ => false

/-- `Type::is_compatible_with`. -/
def tyIsCompatibleWith (a b : Ty) : Bool :=
  if tyBeq a b then true
  else if tyIsNumeric a && tyIsNumeric b then true
  else
    match a, b with
    | .Unknown, _ => true
    | _, .Unknown => true
    | .Array x, .Array y => tyIsCompatibleWith x y
    | .Struct n1 f1, .Struct n2 f2 => structTyBeq (n1, f1) (n2, f2)
    | _, _ => false

/-- `Type::get_element_type`. -/
def tyGetElementType : Ty → Option Ty
  | .Array e => some e
  | _ => none

/-- `ast::Parameter` (`type_annotation` is called `typeAnn` here). -/
structure Parameter : Type where
  name : String
  typeAnn : Option Ty

/-- `ast::BinaryOp`. -/
inductive BinaryOp : Type where
  | Add | Subtract | Multiply | Divide | Modulo
  | Equal | NotEqual | Less | LessEqual | Greater | GreaterEqual
  | And | Or
deriving Repr, DecidableEq

/-- `ast::UnaryOp`. -/
inductive UnaryOp : Type where
  | Not | Negate
deriving Repr, DecidableEq

/-- `ast::Expr`. -/
inductive Expr : Type where
  | Integer : Int → Expr
  | Float : F64 → Expr
  | String : String → Expr
  | Boolean : Bool → Expr
  | Char : Char → Expr
  | Identifier : String → Expr
  | Path : List String → Expr
  | Array : List Expr → Expr
  | StructLiteral : String → List (String × Expr) → Expr
  | Binary : Expr → BinaryOp → Expr → Expr
  | Unary : UnaryOp → Expr → Expr
  | Call : Expr → List Expr → Expr
  | Index : Expr → Expr → Expr
  | IndexAssign : Expr → Expr → Expr → Expr
  | Assign : String → Expr → Expr
  | FieldAccess : Expr → String → Expr
  | FieldAssign : Expr → String → Expr → Expr
  | MethodCall : Expr → String → List Expr → Expr

/-- `ast::UseItems`. -/
inductive UseItems : Type where
  | All : UseItems
  | Single : String → UseItems
  | Multiple : List String → UseItems
  | Renamed : String → String → UseItems
deriving Repr, DecidableEq

mutual
/-- `ast::Stmt` and `ast::MethodDeclaration`. `Stmt::VarDeclaration`
carries no visibility field, exactly as in the source. -/
inductive Stmt : Type where
  | Expression : Expr → Stmt
  | VarDeclaration : String → Bool → Option Ty → Option Expr → Stmt
  | FnDeclaration : Visibility → String → List Parameter → Option Ty → List Stmt → Stmt
  | StructDeclaration : Visibility → String → List StructField → Stmt
  | TypeAlias : Visibility → String → Ty → Stmt
  | Return : Option Expr → Stmt
  | If : Expr → List Stmt → Option (List Stmt) → Stmt
  | While : Expr → List Stmt → Stmt
  | For : String → Expr → Expr → List Stmt → Stmt
  | Print : Expr → Stmt
  | Block : List Stmt → Stmt
  | Break : Stmt
  | Continue : Stmt
  | ImplBlock : String → List MethodDeclaration → Stmt
  | ModuleDeclaration : String → List Stmt → Bool → Stmt
  | UseStatement : List String → UseItems → Stmt
  | ModuleReference : String → Bool → Stmt

inductive MethodDeclaration : Type where
  | mk : String → List Parameter → Option Ty → List Stmt → MethodDeclaration
end

def MethodDeclaration.name : MethodDeclaration → String
  | .mk n _ _ _ => n

def MethodDeclaration.parameters : MethodDeclaration → List Parameter
  | .mk _ ps _ _ => ps

def MethodDeclaration.returnType : MethodDeclaration → Option Ty
  | .mk _ _ r _ => r

def MethodDeclaration.body : MethodDeclaration → List Stmt
  | .mk _ _ _ b => b

/-- `ast::Program`. -/
structure Program : Type where
  statements : List Stmt


/-! ## Tokens (`src/lexer/token.rs`) -/

/-- `token::Position`. -/
structure Position : Type where
  line : Nat
  column : Nat
  offset : Nat
deriving Repr, DecidableEq

/-- `token::TokenType` (`Type` is a Lean keyword, so the `type` keyword
token is `TypeKw`). -/
inductive TokenType : Type where
  | Integer | Float | String | Char | Identifier
  | Let | Var | Fn | Return | If | Else | While | For | In
  | Break | Continue | True | False | Print | Struct | TypeKw | Impl
  | Pub | Use | Mod | As | Macro | Derive
  | Int | Int64 | Float64 | String64 | Bool | Void | Null
  | Plus | Minus | Star | Slash | Percent
  | PlusEqual | MinusEqual | StarEqual | SlashEqual | PercentEqual
  | Equal | EqualEqual | Bang | BangEqual
  | Less | LessEqual | Greater | GreaterEqual
  | And | Or
  | LeftParen | RightParen | LeftBrace | RightBrace
  | LeftBracket | RightBracket
  | Comma | Semicolon | Colon | Dot | DotDot | Arrow | DoubleColon
  | ScientificExponent
  | EOF | Unknown
deriving Repr, DecidableEq

/-- `token::Token`. -/
structure Token : Type where
  tokenType : TokenType
  value : String
  startPos : Position
  endPos : Position
deriving Repr, DecidableEq

/-- `Position::new(0, 0, 0)`, used by the parser for synthetic EOF tokens. -/
def pos0 : Position := ⟨0, 0, 0⟩

/-- The synthetic EOF token the parser substitutes for out-of-range
accesses (`Token::new(TokenType::EOF, String::new(), …)`). -/
def eofToken : Token := ⟨.EOF, "", pos0, pos0⟩

/-! ## Parser (`src/parser/mod.rs`)

The parser is a fuel-indexed state-passing embedding of the mutually
recursive methods of `Parser`.  The repeated inline loops of the source
(statement lists until `}`, comma-separated lists, operator-precedence
loops) are factored into named loop functions; each corresponds to one
`while`/`loop` in the Rust. -/

/-- `parser::ParseError`. -/
inductive ParseError : Type where
  | UnexpectedToken : String → TokenType → ParseError
  | UnexpectedEOF : ParseError
  | InvalidExpression : ParseError
deriving Repr, DecidableEq

/-- `parser::Parser` (the token vector plus the cursor). -/
structure Parser : Type where
  tokens : List Token
  current : Nat
deriving Repr, DecidableEq

/-- `Parser::current_token`. -/
def Parser.currentToken (p : Parser) : Token :=
  (p.tokens.get? p.current).getD eofToken

/-- `Parser::peek`. -/
def Parser.peekTok (p : Parser) (offset : Nat) : Token :=
  (p.tokens.get? (p.current + offset)).getD eofToken

/-- `Parser::advance`: bumps the cursor (when not at the end) and returns
the token just passed. -/
def Parser.advance (p : Parser) : Token × Parser :=
  let p2 := if p.current < p.tokens.length then { p with current := p.current + 1 } else p
  ((p2.tokens.get? (p2.current - 1)).getD eofToken, p2)

/-- `Parser::check`. -/
def Parser.check (p : Parser) (t : TokenType) : Bool :=
  p.currentToken.tokenType == t

/-- `Parser::match_token`. -/
def Parser.matchToken (p : Parser) : List TokenType → Bool × Parser
  | [] => (false, p)
  | t :: rest =>
      if p.check t then (true, (p.advance).2) else p.matchToken rest

/-- `Parser::consume`. -/
def Parser.consume (p : Parser) (t : TokenType) (message : String) :
    Res ParseError (Token × Parser) :=
  if p.check t then .ok p.advance
  else .err (.UnexpectedToken message p.currentToken.tokenType)

/-- The token the parser just consumed
(`self.tokens.get(self.current.saturating_sub(1))`). -/
def Parser.prevToken (p : Parser) : Token :=
  (p.tokens.get? (p.current - 1)).getD eofToken

mutual

/-- `Parser::parse`: the top-level `while !check(EOF)` loop collecting
declarations into a `Program`. -/
def Parser.parse : Nat → Parser → List Stmt → Res ParseError (Program × Parser)
  | 0, _, _ => .div
  | fuel + 1, p, acc =>
      if p.check .EOF then .ok (⟨acc⟩, p)
      else do
        let (s, p) ← Parser.declaration fuel p
        Parser.parse fuel p (acc ++ [s])

/-- `Parser::declaration`. -/
def Parser.declaration : Nat → Parser → Res ParseError (Stmt × Parser)
  | 0, _ => .div
  | fuel + 1, p =>
      let (isPub, p) := p.matchToken [.Pub]
      let visibility := if isPub then Visibility.Public else Visibility.Private
      let (mLet, p1) := p.matchToken [.Let, .Var]
      if mLet then Parser.varDeclaration fuel p1
      else
        let (mFn, p2) := p1.matchToken [.Fn]
        if mFn then Parser.fnDeclaration fuel p2 visibility
        else
          let (mStruct, p3) := p2.matchToken [.Struct]
          if mStruct then Parser.structDeclaration fuel p3 visibility
          else
            let (mType, p4) := p3.matchToken [.TypeKw]
            if mType then Parser.typeAliasDeclaration fuel p4 visibility
            else
              let (mImpl, p5) := p4.matchToken [.Impl]
              if mImpl then Parser.implBlock fuel p5
              else
                let (mMod, p6) := p5.matchToken [.Mod]
                if mMod then Parser.modDeclaration fuel p6 visibility
                else
                  let (mUse, p7) := p6.matchToken [.Use]
                  if mUse then Parser.useStatement fuel p7
                  else
                    if visibility == Visibility.Public then
                      .err (.UnexpectedToken ("fn, struct, type, or mod after 'pub'")
                        p7.currentToken.tokenType)
                    else Parser.statement fuel p7

/-- `Parser::var_declaration` (looks back one token for `var`). -/
def Parser.varDeclaration : Nat → Parser → Res ParseError (Stmt × Parser)
  | 0, _ => .div
  | fuel + 1, p => do
      let isMutable := p.prevToken.tokenType == TokenType.Var
      let (nameTok, p) ← p.consume .Identifier ("Expected variable name")
      let (hasColon, p) := p.matchToken [.Colon]
      let (typeAnn, p) ← (if hasColon then do
          let (t, p) ← Parser.parseType fuel p
          (pure (some t, p) : Res ParseError (Option Ty × Parser))
        else pure (none, p))
      let (hasEq, p) := p.matchToken [.Equal]
      let (initializer, p) ← (if hasEq then do
          let (e, p) ← Parser.expression fuel p
          (pure (some e, p) : Res ParseError (Option Expr × Parser))
        else pure (none, p))
      let (_, p) ← p.consume .Semicolon ("Expected ';' after variable declaration")
      .ok (.VarDeclaration nameTok.value isMutable typeAnn initializer, p)

/-- `Parser::fn_declaration`. -/
def Parser.fnDeclaration : Nat → Parser → Visibility → Res ParseError (Stmt × Parser)
  | 0, _, _ => .div
  | fuel + 1, p, visibility => do
      let (nameTok, p) ← p.consume .Identifier ("Expected function name")
      let (_, p) ← p.consume .LeftParen ("Expected '(' after function name")
      let (parameters, p) ← (if p.check .RightParen then pure ([], p)
        else Parser.paramListLoop fuel p [])
      let (_, p) ← p.consume .RightParen ("Expected ')' after parameters")
      let (hasArrow, p) := p.matchToken [.Arrow]
      let (returnType, p) ← (if hasArrow then do
          let (t, p) ← Parser.parseType fuel p
          (pure (some t, p) : Res ParseError (Option Ty × Parser))
        else pure (none, p))
      let (_, p) ← p.consume .LeftBrace ("Expected '\x7b' before function body")
      let (body, p) ← Parser.declList fuel p []
      let (_, p) ← p.consume .RightBrace ("Expected '\x7d' after function body")
      .ok (.FnDeclaration visibility nameTok.value parameters returnType body, p)

/-- The parameter `loop` inside `Parser::fn_declaration`. -/
def Parser.paramListLoop : Nat → Parser → List Parameter →
    Res ParseError (List Parameter × Parser)
  | 0, _, _ => .div
  | fuel + 1, p, acc => do
      let (paramTok, p) ← p.consume .Identifier ("Expected parameter name")
      let (hasColon, p) := p.matchToken [.Colon]
      let (typeAnn, p) ← (if hasColon then do
          let (t, p) ← Parser.parseType fuel p
          (pure (some t, p) : Res ParseError (Option Ty × Parser))
        else pure (none, p))
      let acc := acc ++ [⟨paramTok.value, typeAnn⟩]
      let (hasComma, p) := p.matchToken [.Comma]
      if hasComma then Parser.paramListLoop fuel p acc
      else .ok (acc, p)

/-- The struct-field loop shared (verbatim in the source) by
`Parser::struct_declaration`, the anonymous-struct arm of
`Parser::type_alias_declaration` and of `Parser::parse_type`:
`while !check(RightBrace) && !check(EOF) { field ':' type [',' continue | break] }`. -/
def Parser.structFieldsLoop : Nat → Parser → List StructField →
    Res ParseError (List StructField × Parser)
  | 0, _, _ => .div
  | fuel + 1, p, acc =>
      if !p.check .RightBrace && !p.check .EOF then do
        let (fieldTok, p) ← p.consume .Identifier ("Expected field name")
        let (_, p) ← p.consume .Colon ("Expected ':' after field name")
        let (fieldType, p) ← Parser.parseType fuel p
        let acc := acc ++ [StructField.mk fieldTok.value fieldType]
        let (hasComma, p) := p.matchToken [.Comma]
        if hasComma then Parser.structFieldsLoop fuel p acc
        else .ok (acc, p)
      else .ok (acc, p)

/-- `Parser::struct_declaration`. -/
def Parser.structDeclaration : Nat → Parser → Visibility → Res ParseError (Stmt × Parser)
  | 0, _, _ => .div
  | fuel + 1, p, visibility => do
      let (nameTok, p) ← p.consume .Identifier ("Expected struct name")
      let (_, p) ← p.consume .LeftBrace ("Expected '\x7b' after struct name")
      let (fields, p) ← Parser.structFieldsLoop fuel p []
      let (_, p) ← p.consume .RightBrace ("Expected '\x7d' after struct fields")
      let (_, p) ← p.consume .Semicolon ("Expected ';' after struct declaration")
      .ok (.StructDeclaration visibility nameTok.value fields, p)

/-- `Parser::type_alias_declaration`. -/
def Parser.typeAliasDeclaration : Nat → Parser → Visibility → Res ParseError (Stmt × Parser)
  | 0, _, _ => .div
  | fuel + 1, p, visibility => do
      let (nameTok, p) ← p.consume .Identifier ("Expected type alias name")
      let (_, p) ← p.consume .Equal ("Expected '=' after type alias name")
      let (isStruct, p) := p.matchToken [.Struct]
      let (targetType, p) ← (if isStruct then do
          let (_, p) ← p.consume .LeftBrace ("Expected '\x7b' after 'struct'")
          let (fields, p) ← Parser.structFieldsLoop fuel p []
          let (_, p) ← p.consume .RightBrace ("Expected '\x7d' after struct fields")
          (pure (Ty.Struct ("anonymous_" ++ nameTok.value) fields, p) :
            Res ParseError (Ty × Parser))
        else Parser.parseType fuel p)
      let (_, p) ← p.consume .Semicolon ("Expected ';' after type alias")
      .ok (.TypeAlias visibility nameTok.value targetType, p)

/-- `Parser::impl_block`. -/
def Parser.implBlock : Nat → Parser → Res ParseError (Stmt × Parser)
  | 0, _ => .div
  | fuel + 1, p => do
      let (typeTok, p) ← p.consume .Identifier ("Expected type name after 'impl'")
      let (_, p) ← p.consume .LeftBrace ("Expected '\x7b' after type name")
      let (methods, p) ← Parser.implMethodsLoop fuel p []
      let (_, p) ← p.consume .RightBrace ("Expected '\x7d' after impl block")
      .ok (.ImplBlock typeTok.value methods, p)

/-- The method loop inside `Parser::impl_block`. -/
def Parser.implMethodsLoop : Nat → Parser → List MethodDeclaration →
    Res ParseError (List MethodDeclaration × Parser)
  | 0, _, _ => .div
  | fuel + 1, p, acc =>
      if !p.check .RightBrace && !p.check .EOF then do
        let (_, p) ← p.consume .Fn ("Expected 'fn' for method declaration")
        let (nameTok, p) ← p.consume .Identifier ("Expected method name")
        let (_, p) ← p.consume .LeftParen ("Expected '(' after method name")
        let (parameters, p) ← (if !p.check .RightParen then do
            let (firstTok, p) ← p.consume .Identifier ("Expected parameter name")
            if firstTok.value == "self" then
              let (hasComma, p) := p.matchToken [.Comma]
              if hasComma then Parser.paramListLoop fuel p []
              else (pure ([], p) : Res ParseError (List Parameter × Parser))
            else .err (.UnexpectedToken ("self") .Identifier)
          else pure ([], p))
        let (_, p) ← p.consume .RightParen ("Expected ')' after parameters")
        let (hasArrow, p) := p.matchToken [.Arrow]
        let (returnType, p) ← (if hasArrow then do
            let (t, p) ← Parser.parseType fuel p
            (pure (some t, p) : Res ParseError (Option Ty × Parser))
          else pure (none, p))
        let (_, p) ← p.consume .LeftBrace ("Expected '\x7b' before method body")
        let (body, p) ← Parser.declList fuel p []
        let (_, p) ← p.consume .RightBrace ("Expected '\x7d' after method body")
        Parser.implMethodsLoop fuel p
          (acc ++ [MethodDeclaration.mk nameTok.value parameters returnType body])
      else .ok (acc, p)

/-- `Parser::mod_declaration`. -/
def Parser.modDeclaration : Nat → Parser → Visibility → Res ParseError (Stmt × Parser)
  | 0, _, _ => .div
  | fuel + 1, p, visibility => do
      let (nameTok, p) ← p.consume .Identifier ("Expected module name after 'mod'")
      let (isSemi, p) := p.matchToken [.Semicolon]
      if isSemi then
        .ok (.ModuleReference nameTok.value (visibility == Visibility.Public), p)
      else do
        let (_, p) ← p.consume .LeftBrace ("Expected '\x7b' or ';' after module name")
        let (statements, p) ← Parser.declList fuel p []
        let (_, p) ← p.consume .RightBrace ("Expected '\x7d' after module body")
        .ok (.ModuleDeclaration nameTok.value statements (visibility == Visibility.Public), p)

/-- `Parser::use_statement`. -/
def Parser.useStatement : Nat → Parser → Res ParseError (Stmt × Parser)
  | 0, _ => .div
  | fuel + 1, p => do
      let (first, p) ← p.consume .Identifier ("Expected module name after 'use'")
      Parser.usePathLoop fuel p [first.value]

/-- The path loop inside `Parser::use_statement`
(`while match_token(DoubleColon) { … }` and the trailing `as`/single-item
handling). -/
def Parser.usePathLoop : Nat → Parser → List String → Res ParseError (Stmt × Parser)
  | 0, _, _ => .div
  | fuel + 1, p, path =>
      let (hasDC, p) := p.matchToken [.DoubleColon]
      if hasDC then
        let (hasStar, p) := p.matchToken [.Star]
        if hasStar then do
          let (_, p) ← p.consume .Semicolon ("Expected ';' after use statement")
          .ok (.UseStatement path .All, p)
        else if p.check .LeftBrace then do
          let (_, p) := p.advance
          let (items, p) ← Parser.useItemsLoop fuel p []
          let (_, p) ← p.consume .RightBrace ("Expected '\x7d' after use list")
          let (_, p) ← p.consume .Semicolon ("Expected ';' after use statement")
          .ok (.UseStatement path (.Multiple items), p)
        else do
          let (seg, p) ← p.consume .Identifier ("Expected identifier after '::'")
          Parser.usePathLoop fuel p (path ++ [seg.value])
      else
        let (hasAs, p) := p.matchToken [.As]
        if hasAs then do
          let (aliasTok, p) ← p.consume .Identifier ("Expected alias after 'as'")
          let item := (path.getLast?).getD ""
          let path := path.dropLast
          let (_, p) ← p.consume .Semicolon ("Expected ';' after use statement")
          .ok (.UseStatement path (.Renamed item aliasTok.value), p)
        else do
          let item := (path.getLast?).getD ""
          let path := path.dropLast
          let (_, p) ← p.consume .Semicolon ("Expected ';' after use statement")
          .ok (.UseStatement path (.Single item), p)

/-- The item loop inside `Parser::use_statement` for `use p::{a, b}`. -/
def Parser.useItemsLoop : Nat → Parser → List String → Res ParseError (List String × Parser)
  | 0, _, _ => .div
  | fuel + 1, p, acc => do
      let (itemTok, p) ← p.consume .Identifier ("Expected identifier in use list")
      let acc := acc ++ [itemTok.value]
      let (hasComma, p) := p.matchToken [.Comma]
      if hasComma then Parser.useItemsLoop fuel p acc
      else .ok (acc, p)

/-- `Parser::parse_type`. -/
def Parser.parseType : Nat → Parser → Res ParseError (Ty × Parser)
  | 0, _ => .div
  | fuel + 1, p =>
      if p.check .LeftBracket then do
        let (_, p) := p.advance
        let (elementType, p) ← Parser.parseType fuel p
        let (_, p) ← p.consume .RightBracket ("Expected ']' after array element type")
        .ok (.Array elementType, p)
      else
        let (isStruct, p) := p.matchToken [.Struct]
        if isStruct then do
          let (_, p) ← p.consume .LeftBrace ("Expected '\x7b' after 'struct'")
          let (fields, p) ← Parser.structFieldsLoop fuel p []
          let (_, p) ← p.consume .RightBrace ("Expected '\x7d' after struct fields")
          .ok (.Struct ("anonymous") fields, p)
        else
          let token := p.currentToken
          match token.tokenType with
          | .Int => .ok (.Int, (p.advance).2)
          | .Float64 => .ok (.Float, (p.advance).2)
          | .String64 => .ok (.String, (p.advance).2)
          | .Bool => .ok (.Bool, (p.advance).2)
          | .Void => .ok (.Void, (p.advance).2)
          | .Null => .ok (.Null, (p.advance).2)
          | .Char => .ok (.Char, (p.advance).2)
          | .Identifier => .ok (.Named token.value, (p.advance).2)
          | _ => .err (.UnexpectedToken ("type name") token.tokenType)

/-- `Parser::statement`. -/
def Parser.statement : Nat → Parser → Res ParseError (Stmt × Parser)
  | 0, _ => .div
  | fuel + 1, p =>
      let (mRet, p1) := p.matchToken [.Return]
      if mRet then Parser.returnStatement fuel p1
      else
        let (mBreak, p2) := p1.matchToken [.Break]
        if mBreak then Parser.breakStatement fuel p2
        else
          let (mCont, p3) := p2.matchToken [.Continue]
          if mCont then Parser.continueStatement fuel p3
          else
            let (mIf, p4) := p3.matchToken [.If]
            if mIf then Parser.ifStatement fuel p4
            else
              let (mWhile, p5) := p4.matchToken [.While]
              if mWhile then Parser.whileStatement fuel p5
              else
                let (mFor, p6) := p5.matchToken [.For]
                if mFor then Parser.forStatement fuel p6
                else
                  let (mPrint, p7) := p6.matchToken [.Print]
                  if mPrint then Parser.printStatement fuel p7
                  else
                    let (mBrace, p8) := p7.matchToken [.LeftBrace]
                    if mBrace then Parser.blockStatement fuel p8
                    else Parser.expressionStatement fuel p8

/-- `Parser::break_statement`. -/
def Parser.breakStatement : Nat → Parser → Res ParseError (Stmt × Parser)
  | 0, _ => .div
  | _ + 1, p => do
      let (_, p) ← p.consume .Semicolon ("Expected ';' after break")
      .ok (.Break, p)

/-- `Parser::continue_statement`. -/
def Parser.continueStatement : Nat → Parser → Res ParseError (Stmt × Parser)
  | 0, _ => .div
  | _ + 1, p => do
      let (_, p) ← p.consume .Semicolon ("Expected ';' after continue")
      .ok (.Continue, p)

/-- `Parser::return_statement`. -/
def Parser.returnStatement : Nat → Parser → Res ParseError (Stmt × Parser)
  | 0, _ => .div
  | fuel + 1, p => do
      let (value, p) ← (if !p.check .Semicolon then do
          let (e, p) ← Parser.expression fuel p
          (pure (some e, p) : Res ParseError (Option Expr × Parser))
        else pure (none, p))
      let (_, p) ← p.consume .Semicolon ("Expected ';' after return value")
      .ok (.Return value, p)

/-- The statement-list loop `while !check(RightBrace) && !check(EOF)
{ declaration }` that the source repeats inline in function bodies,
`if`/`else` branches, `while`/`for` bodies, inline modules and blocks. -/
def Parser.declList : Nat → Parser → List Stmt → Res ParseError (List Stmt × Parser)
  | 0, _, _ => .div
  | fuel + 1, p, acc =>
      if !p.check .RightBrace && !p.check .EOF then do
        let (s, p) ← Parser.declaration fuel p
        Parser.declList fuel p (acc ++ [s])
      else .ok (acc, p)

/-- `Parser::if_statement`: note that the condition expression is parsed
*before* the `\x7b` of the then-branch is consumed. -/
def Parser.ifStatement : Nat → Parser → Res ParseError (Stmt × Parser)
  | 0, _ => .div
  | fuel + 1, p => do
      let (condition, p) ← Parser.expression fuel p
      let (_, p) ← p.consume .LeftBrace ("Expected '\x7b' after if condition")
      let (thenBranch, p) ← Parser.declList fuel p []
      let (_, p) ← p.consume .RightBrace ("Expected '\x7d' after then branch")
      let (hasElse, p) := p.matchToken [.Else]
      if hasElse then do
        let (_, p) ← p.consume .LeftBrace ("Expected '\x7b' after else")
        let (elseStmts, p) ← Parser.declList fuel p []
        let (_, p) ← p.consume .RightBrace ("Expected '\x7d' after else branch")
        .ok (.If condition thenBranch (some elseStmts), p)
      else .ok (.If condition thenBranch none, p)

/-- `Parser::while_statement`: the condition expression is parsed before
the body `\x7b` is consumed. -/
def Parser.whileStatement : Nat → Parser → Res ParseError (Stmt × Parser)
  | 0, _ => .div
  | fuel + 1, p => do
      let (condition, p) ← Parser.expression fuel p
      let (_, p) ← p.consume .LeftBrace ("Expected '\x7b' after while condition")
      let (body, p) ← Parser.declList fuel p []
      let (_, p) ← p.consume .RightBrace ("Expected '\x7d' after while body")
      .ok (.While condition body, p)

/-- `Parser::for_statement`. -/
def Parser.forStatement : Nat → Parser → Res ParseError (Stmt × Parser)
  | 0, _ => .div
  | fuel + 1, p => do
      let (varTok, p) ← p.consume .Identifier ("Expected variable name")
      let (_, p) ← p.consume .In ("Expected 'in' after loop variable")
      let (start, p) ← Parser.expression fuel p
      let (_, p) ← p.consume .DotDot ("Expected '..' in range")
      let (stop, p) ← Parser.expression fuel p
      let (_, p) ← p.consume .LeftBrace ("Expected '\x7b' after for range")
      let (body, p) ← Parser.declList fuel p []
      let (_, p) ← p.consume .RightBrace ("Expected '\x7d' after for body")
      .ok (.For varTok.value start stop body, p)

/-- `Parser::print_statement`. -/
def Parser.printStatement : Nat → Parser → Res ParseError (Stmt × Parser)
  | 0, _ => .div
  | fuel + 1, p => do
      let (_, p) ← p.consume .LeftParen ("Expected '(' after 'print'")
      let (value, p) ← Parser.expression fuel p
      let (_, p) ← p.consume .RightParen ("Expected ')' after print value")
      let (_, p) ← p.consume .Semicolon ("Expected ';' after print statement")
      .ok (.Print value, p)

/-- `Parser::block_statement` (the `\x7b` was already consumed by
`statement`). -/
def Parser.blockStatement : Nat → Parser → Res ParseError (Stmt × Parser)
  | 0, _ => .div
  | fuel + 1, p => do
      let (statements, p) ← Parser.declList fuel p []
      let (_, p) ← p.consume .RightBrace ("Expected '\x7d' after block")
      .ok (.Block statements, p)

/-- `Parser::expression_statement`. -/
def Parser.expressionStatement : Nat → Parser → Res ParseError (Stmt × Parser)
  | 0, _ => .div
  | fuel + 1, p => do
      let (e, p) ← Parser.expression fuel p
      let (_, p) ← p.consume .Semicolon ("Expected ';' after expression")
      .ok (.Expression e, p)

/-- `Parser::expression`. -/
def Parser.expression : Nat → Parser → Res ParseError (Expr × Parser)
  | 0, _ => .div
  | fuel + 1, p => Parser.assignment fuel p

/-- `Parser::assignment`. -/
def Parser.assignment : Nat → Parser → Res ParseError (Expr × Parser)
  | 0, _ => .div
  | fuel + 1, p => do
      let (expr, p) ← Parser.orExpr fuel p
      let (hasEq, p1) := p.matchToken [.Equal]
      if hasEq then
        match expr with
        | .Identifier name => do
            let (value, p2) ← Parser.assignment fuel p1
            .ok (.Assign name value, p2)
        | .Index object index => do
            let (value, p2) ← Parser.assignment fuel p1
            .ok (.IndexAssign object index value, p2)
        | .FieldAccess object field => do
            let (value, p2) ← Parser.assignment fuel p1
            .ok (.FieldAssign object field value, p2)
        | _ => .ok (expr, p1)
      else
        let (hasCompound, p1) := p.matchToken
          [.PlusEqual, .MinusEqual, .StarEqual, .SlashEqual, .PercentEqual]
        if hasCompound then
          let op := match p1.prevToken.tokenType with
            | .PlusEqual => BinaryOp.Add
            | .MinusEqual => BinaryOp.Subtract
            | .StarEqual => BinaryOp.Multiply
            | .SlashEqual => BinaryOp.Divide
            | _ => BinaryOp.Modulo
          match expr with
          | .Identifier name => do
              let (value, p2) ← Parser.assignment fuel p1
              .ok (.Assign name (.Binary expr op value), p2)
          | .Index object index => do
              let (value, p2) ← Parser.assignment fuel p1
              .ok (.IndexAssign object index (.Binary expr op value), p2)
          | .FieldAccess object field => do
              let (value, p2) ← Parser.assignment fuel p1
              .ok (.FieldAssign object field (.Binary expr op value), p2)
          | _ => .ok (expr, p1)
        else .ok (expr, p1)

/-- `Parser::or` (named `orExpr` here). -/
def Parser.orExpr : Nat → Parser → Res ParseError (Expr × Parser)
  | 0, _ => .div
  | fuel + 1, p => do
      let (expr, p) ← Parser.andExpr fuel p
      Parser.orLoop fuel p expr

/-- The `while match_token(Or)` loop of `Parser::or`. -/
def Parser.orLoop : Nat → Parser → Expr → Res ParseError (Expr × Parser)
  | 0, _, _ => .div
  | fuel + 1, p, expr =>
      let (hasOr, p1) := p.matchToken [.Or]
      if hasOr then do
        let (right, p2) ← Parser.andExpr fuel p1
        Parser.orLoop fuel p2 (.Binary expr .Or right)
      else .ok (expr, p1)

/-- `Parser::and` (named `andExpr` here). -/
def Parser.andExpr : Nat → Parser → Res ParseError (Expr × Parser)
  | 0, _ => .div
  | fuel + 1, p => do
      let (expr, p) ← Parser.equality fuel p
      Parser.andLoop fuel p expr

/-- The `while match_token(And)` loop of `Parser::and`. -/
def Parser.andLoop : Nat → Parser → Expr → Res ParseError (Expr × Parser)
  | 0, _, _ => .div
  | fuel + 1, p, expr =>
      let (hasAnd, p1) := p.matchToken [.And]
      if hasAnd then do
        let (right, p2) ← Parser.equality fuel p1
        Parser.andLoop fuel p2 (.Binary expr .And right)
      else .ok (expr, p1)

/-- `Parser::equality`. -/
def Parser.equality : Nat → Parser → Res ParseError (Expr × Parser)
  | 0, _ => .div
  | fuel + 1, p => do
      let (expr, p) ← Parser.comparison fuel p
      Parser.equalityLoop fuel p expr

/-- The operator loop of `Parser::equality`. -/
def Parser.equalityLoop : Nat → Parser → Expr → Res ParseError (Expr × Parser)
  | 0, _, _ => .div
  | fuel + 1, p, expr =>
      let (hasOp, p1) := p.matchToken [.EqualEqual, .BangEqual]
      if hasOp then
        let op := match p1.prevToken.tokenType with
          | .EqualEqual => BinaryOp.Equal
          | _ => BinaryOp.NotEqual
        do
          let (right, p2) ← Parser.comparison fuel p1
          Parser.equalityLoop fuel p2 (.Binary expr op right)
      else .ok (expr, p1)

/-- `Parser::comparison`. -/
def Parser.comparison : Nat → Parser → Res ParseError (Expr × Parser)
  | 0, _ => .div
  | fuel + 1, p => do
      let (expr, p) ← Parser.term fuel p
      Parser.comparisonLoop fuel p expr

/-- The operator loop of `Parser::comparison`. -/
def Parser.comparisonLoop : Nat → Parser → Expr → Res ParseError (Expr × Parser)
  | 0, _, _ => .div
  | fuel + 1, p, expr =>
      let (hasOp, p1) := p.matchToken [.Greater, .GreaterEqual, .Less, .LessEqual]
      if hasOp then
        let op := match p1.prevToken.tokenType with
          | .Greater => BinaryOp.Greater
          | .GreaterEqual => BinaryOp.GreaterEqual
          | .Less => BinaryOp.Less
          | _ => BinaryOp.LessEqual
        do
          let (right, p2) ← Parser.term fuel p1
          Parser.comparisonLoop fuel p2 (.Binary expr op right)
      else .ok (expr, p1)

/-- `Parser::term`. -/
def Parser.term : Nat → Parser → Res ParseError (Expr × Parser)
  | 0, _ => .div
  | fuel + 1, p => do
      let (expr, p) ← Parser.factor fuel p
      Parser.termLoop fuel p expr

/-- The operator loop of `Parser::term`. -/
def Parser.termLoop : Nat → Parser → Expr → Res ParseError (Expr × Parser)
  | 0, _, _ => .div
  | fuel + 1, p, expr =>
      let (hasOp, p1) := p.matchToken [.Plus, .Minus]
      if hasOp then
        let op := match p1.prevToken.tokenType with
          | .Plus => BinaryOp.Add
          | _ => BinaryOp.Subtract
        do
          let (right, p2) ← Parser.factor fuel p1
          Parser.termLoop fuel p2 (.Binary expr op right)
      else .ok (expr, p1)

/-- `Parser::factor`. -/
def Parser.factor : Nat → Parser → Res ParseError (Expr × Parser)
  | 0, _ => .div
  | fuel + 1, p => do
      let (expr, p) ← Parser.unary fuel p
      Parser.factorLoop fuel p expr

/-- The operator loop of `Parser::factor`. -/
def Parser.factorLoop : Nat → Parser → Expr → Res ParseError (Expr × Parser)
  | 0, _, _ => .div
  | fuel + 1, p, expr =>
      let (hasOp, p1) := p.matchToken [.Star, .Slash, .Percent]
      if hasOp then
        let op := match p1.prevToken.tokenType with
          | .Star => BinaryOp.Multiply
          | .Slash => BinaryOp.Divide
          | _ => BinaryOp.Modulo
        do
          let (right, p2) ← Parser.unary fuel p1
          Parser.factorLoop fuel p2 (.Binary expr op right)
      else .ok (expr, p1)

/-- `Parser::unary`. -/
def Parser.unary : Nat → Parser → Res ParseError (Expr × Parser)
  | 0, _ => .div
  | fuel + 1, p =>
      let (hasOp, p1) := p.matchToken [.Bang, .Minus]
      if hasOp then
        let op := match p1.prevToken.tokenType with
          | .Bang => UnaryOp.Not
          | _ => UnaryOp.Negate
        do
          let (operand, p2) ← Parser.unary fuel p1
          .ok (.Unary op operand, p2)
      else Parser.callExpr fuel p1

/-- `Parser::call` (named `callExpr` here). -/
def Parser.callExpr : Nat → Parser → Res ParseError (Expr × Parser)
  | 0, _ => .div
  | fuel + 1, p => do
      let (expr, p) ← Parser.primary fuel p
      Parser.callLoop fuel p expr

/-- The postfix `loop` of `Parser::call` (calls, indexing, field access
and method calls). -/
def Parser.callLoop : Nat → Parser → Expr → Res ParseError (Expr × Parser)
  | 0, _, _ => .div
  | fuel + 1, p, expr =>
      let (hasParen, p1) := p.matchToken [.LeftParen]
      if hasParen then do
        let (expr2, p2) ← Parser.finishCall fuel p1 expr
        Parser.callLoop fuel p2 expr2
      else
        let (hasBracket, p2) := p1.matchToken [.LeftBracket]
        if hasBracket then do
          let (index, p3) ← Parser.expression fuel p2
          let (_, p4) ← p3.consume .RightBracket ("Expected ']' after index")
          Parser.callLoop fuel p4 (.Index expr index)
        else
          let (hasDot, p3) := p2.matchToken [.Dot]
          if hasDot then do
            let (fieldTok, p4) ← p3.consume .Identifier ("Expected field name after '.'")
            if p4.check .LeftParen then do
              let (_, p5) := p4.advance
              let (expr2, p6) ← Parser.finishMethodCall fuel p5 expr fieldTok.value
              Parser.callLoop fuel p6 expr2
            else Parser.callLoop fuel p4 (.FieldAccess expr fieldTok.value)
          else .ok (expr, p3)

/-- `Parser::finish_call`. -/
def Parser.finishCall : Nat → Parser → Expr → Res ParseError (Expr × Parser)
  | 0, _, _ => .div
  | fuel + 1, p, callee => do
      let (arguments, p) ← (if !p.check .RightParen then Parser.exprListLoop fuel p []
        else pure ([], p))
      let (_, p) ← p.consume .RightParen ("Expected ')' after arguments")
      .ok (.Call callee arguments, p)

/-- `Parser::finish_method_call`. -/
def Parser.finishMethodCall : Nat → Parser → Expr → String → Res ParseError (Expr × Parser)
  | 0, _, _, _ => .div
  | fuel + 1, p, object, method => do
      let (arguments, p) ← (if !p.check .RightParen then Parser.exprListLoop fuel p []
        else pure ([], p))
      let (_, p) ← p.consume .RightParen ("Expected ')' after arguments")
      .ok (.MethodCall object method arguments, p)

/-- The comma-separated expression loop shared (verbatim in the source) by
`Parser::finish_call`, `Parser::finish_method_call` and the array-literal
arm of `Parser::primary`. -/
def Parser.exprListLoop : Nat → Parser → List Expr → Res ParseError (List Expr × Parser)
  | 0, _, _ => .div
  | fuel + 1, p, acc => do
      let (e, p) ← Parser.expression fuel p
      let acc := acc ++ [e]
      let (hasComma, p) := p.matchToken [.Comma]
      if hasComma then Parser.exprListLoop fuel p acc
      else .ok (acc, p)

/-- The `::`-segment loop in the path arm of `Parser::primary`. -/
def Parser.pathSegsLoop : Nat → Parser → List String → Res ParseError (List String × Parser)
  | 0, _, _ => .div
  | fuel + 1, p, segs =>
      let (hasDC, p1) := p.matchToken [.DoubleColon]
      if hasDC then do
        let (segTok, p2) ← p1.consume .Identifier ("Expected identifier after '::'")
        Parser.pathSegsLoop fuel p2 (segs ++ [segTok.value])
      else .ok (segs, p1)

/-- The struct-literal field loop in the identifier arm of
`Parser::primary`. -/
def Parser.structLitFieldsLoop : Nat → Parser → List (String × Expr) →
    Res ParseError (List (String × Expr) × Parser)
  | 0, _, _ => .div
  | fuel + 1, p, acc =>
      if !p.check .RightBrace && !p.check .EOF then do
        let (fieldTok, p) ← p.consume .Identifier ("Expected field name")
        let (_, p) ← p.consume .Colon ("Expected ':' after field name")
        let (fieldValue, p) ← Parser.expression fuel p
        let acc := acc ++ [(fieldTok.value, fieldValue)]
        let (hasComma, p) := p.matchToken [.Comma]
        if hasComma then Parser.structLitFieldsLoop fuel p acc
        else .ok (acc, p)
      else .ok (acc, p)

/-- `Parser::primary`.  In the identifier arm, a following `::` starts a
path and a following `\x7b` starts a struct literal. -/
def Parser.primary : Nat → Parser → Res ParseError (Expr × Parser)
  | 0, _ => .div
  | fuel + 1, p =>
      let (mTrue, p) := p.matchToken [.True]
      if mTrue then .ok (.Boolean true, p)
      else
        let (mFalse, p) := p.matchToken [.False]
        if mFalse then .ok (.Boolean false, p)
        else
          let (mInt, p) := p.matchToken [.Integer]
          if mInt then
            -- `value.parse::<i64>().unwrap()`
            .ok (.Integer ((p.prevToken.value.toInt?).getD 0), p)
          else
            let (mFloat, p) := p.matchToken [.Float]
            if mFloat then
              -- `value.parse::<f64>().unwrap()`: the numeric value of a
              -- float literal is opaque in this model (no claim uses it).
              .ok (.Float ⟨0⟩, p)
            else
              let (mStr, p) := p.matchToken [.String]
              if mStr then .ok (.String p.prevToken.value, p)
              else
                let (mChar, p) := p.matchToken [.Char]
                if mChar then
                  let v := p.prevToken.value
                  let charValue := if v.length ≥ 2 then (v.toList.head?).getD '\x00' else '\x00'
                  .ok (.Char charValue, p)
                else
                  let (mIdent, p) := p.matchToken [.Identifier]
                  if mIdent then
                    let name := p.prevToken.value
                    if p.check .DoubleColon then do
                      let (segs, p) ← Parser.pathSegsLoop fuel p [name]
                      .ok (.Path segs, p)
                    else if p.check .LeftBrace then do
                      let (_, p) := p.advance
                      let (fields, p) ← Parser.structLitFieldsLoop fuel p []
                      let (_, p) ← p.consume .RightBrace ("Expected '\x7d' after struct fields")
                      .ok (.StructLiteral name fields, p)
                    else .ok (.Identifier name, p)
                  else
                    let (mParen, p) := p.matchToken [.LeftParen]
                    if mParen then do
                      let (e, p) ← Parser.expression fuel p
                      let (_, p) ← p.consume .RightParen ("Expected ')' after expression")
                      .ok (e, p)
                    else
                      let (mBracket, p) := p.matchToken [.LeftBracket]
                      if mBracket then do
                        let (elements, p) ← (if !p.check .RightBracket
                          then Parser.exprListLoop fuel p []
                          else pure ([], p))
                        let (_, p) ← p.consume .RightBracket ("Expected ']' after array elements")
                        .ok (.Array elements, p)
                      else .err .InvalidExpression

end


/-- Decimal `i64` parsing of a token lexeme (`value.parse::<i64>()`);
written structurally so that it reduces in the kernel.  Overflow is not
modelled (every literal in this development is small). -/
def digitsToNat (acc : Nat) : List Char → Option Nat
  | [] => some acc
  | c :: cs =>
      if 48 ≤ c.toNat ∧ c.toNat ≤ 57 then digitsToNat (acc * 10 + (c.toNat - 48)) cs
      else none

def parseI64 (s : String) : Option Int :=
  match s.toList with
  | [] => none
  | '-' :: rest =>
      match rest with
      | [] => none
      | _ => (digitsToNat 0 rest).map (fun n => -(n : Int))
  | cs => (digitsToNat 0 cs).map (fun n => (n : Int))

/-! ## Module loader (`src/module_loader.rs`) -/

/-- `module_loader::LoadError` (the payloads of `IoError` and the wrapped
lexer/parser errors are carried as strings, as in the `From` impls that
`format!("{:?}", err)` them). -/
inductive LoadError : Type where
  | ModuleNotFound : String → LoadError
  | CircularDependency : String → LoadError
  | IoError : String → LoadError
  | LexerError : String → LoadError
  | ParseErr : String → LoadError
deriving Repr, DecidableEq

/-- The errors the per-file pipeline (`find_module_file`,
`fs::read_to_string`, lexing, preprocessing, parsing — lines 94–108 of
`module_loader.rs`) can produce: everything except `CircularDependency`,
which only the loader itself raises. -/
inductive EnvError : Type where
  | ModuleNotFound : String → EnvError
  | IoError : String → EnvError
  | LexerError : String → EnvError
  | ParseErr : String → EnvError
deriving Repr, DecidableEq

def EnvError.toLoadError : EnvError → LoadError
  | .ModuleNotFound m => .ModuleNotFound m
  | .IoError m => .IoError m
  | .LexerError m => .LexerError m
  | .ParseErr m => .ParseErr m

/-- The deterministic file-system/lexer/parser composite the loader draws
modules from: for a fixed set of search paths and files, resolving,
reading and parsing a module name always gives the same result. -/
def ModuleEnv : Type := String → Except EnvError Program

/-- `module_loader::ModuleLoader` (the search-path list lives inside the
`ModuleEnv` abstraction). -/
structure ModuleLoader : Type where
  loadedModules : List (String × Program)
  loadingStack : List String
  visited : List String

/-- `ModuleLoader::new`. -/
def ModuleLoader.new : ModuleLoader := ⟨[], [], []⟩

/-- The `found_start` loop of `ModuleLoader::build_cycle_message`. -/
def buildCycleAux (currentModule : String) (foundStart : Bool)
    (cycle : List String) : List String → List String
  | [] => cycle
  | m :: rest =>
      let fs := foundStart || (m == currentModule)
      buildCycleAux currentModule fs (if fs then cycle ++ [m] else cycle) rest

/-- `ModuleLoader::build_cycle_message`. -/
def ModuleLoader.buildCycleMessage (l : ModuleLoader) (currentModule : String) : String :=
  let cycle := buildCycleAux currentModule false [] l.loadingStack ++ [currentModule]
  "Circular dependency detected: " ++ String.intercalate " → " cycle

/-- `ModuleLoader::load_module`.  State mutations performed before an
early `?` return persist in the returned loader, exactly as for the
`&mut self` receiver in Rust; in particular nothing pops the loading
stack on the error paths. -/
def ModuleLoader.loadModule (env : ModuleEnv) (l : ModuleLoader) (name : String) :
    Except LoadError Program × ModuleLoader :=
  match alistGet l.loadedModules name with
  | some program => (.ok program, l)
  | none =>
      if l.loadingStack.contains name then
        (.error (.CircularDependency (l.buildCycleMessage name)), l)
      else
        let l := { l with
          loadingStack := l.loadingStack ++ [name],
          visited := if l.visited.contains name then l.visited else l.visited ++ [name] }
        match env name with
        | .error e => (.error e.toLoadError, l)
        | .ok program =>
            let l := { l with loadedModules := alistInsert l.loadedModules name program }
            let l := { l with loadingStack := l.loadingStack.dropLast }
            (.ok program, l)

/-- `ModuleLoader::loaded_count`. -/
def ModuleLoader.loadedCount (l : ModuleLoader) : Nat := l.loadedModules.length

/-- The statement loop of `main::resolve_module_references`: each
top-level `ModuleReference` is loaded and replaced in place by a
`ModuleDeclaration`; every other statement is kept.  A load failure
aborts with the failing module name and error
(`format!("Failed to load module '{}': {:?}", name, err)`). -/
def resolveModuleRefsLoop (env : ModuleEnv) :
    ModuleLoader → List Stmt → List Stmt → Except (String × LoadError) (List Stmt)
  | _, acc, [] => .ok acc
  | loader, acc, .ModuleReference name isPublic :: rest =>
      match loader.loadModule env name with
      | (.ok moduleProgram, loader) =>
          resolveModuleRefsLoop env loader
            (acc ++ [.ModuleDeclaration name moduleProgram.statements isPublic]) rest
      | (.error e, _) => .error (name, e)
  | loader, acc, s :: rest => resolveModuleRefsLoop env loader (acc ++ [s]) rest

/-- `main::resolve_module_references`: fresh loader (the search paths are
part of `env`), then the replacement loop. -/
def resolveModuleReferences (env : ModuleEnv) (program : Program) :
    Except (String × LoadError) Program :=
  (resolveModuleRefsLoop env ModuleLoader.new [] program.statements).map Program.mk

/-! ## Type checker (`src/type_checker/mod.rs`) -/

/-- `type_checker::TypeError`. -/
inductive TypeError : Type where
  | TypeMismatch : Ty → Ty → String → TypeError
  | UndefinedVariable : String → TypeError
  | UndefinedFunction : String → TypeError
  | ArgumentCountMismatch : Nat → Nat → String → TypeError
  | ArgumentTypeMismatch : Ty → Ty → Nat → String → TypeError
  | ReturnTypeMismatch : Ty → Ty → String → TypeError
  | CannotInferType : String → TypeError
  | InvalidOperation : String → Ty → Ty → TypeError
  | ImmutableAssignment : String → TypeError
  | BreakOutsideLoop : TypeError
  | ContinueOutsideLoop : TypeError

/-- `type_checker::Symbol`. -/
structure Symbol : Type where
  symbolType : Ty
  isMutable : Bool
  visibility : Visibility
  modulePath : List String

/-- `type_checker::ModuleSymbols`. -/
structure ModuleSymbols : Type where
  symbols : List (String × Symbol)

/-- `type_checker::SymbolTable`.  `scopes` is stored innermost-first:
Rust pushes/pops at the end of the `Vec` and reads it with
`.iter().rev()`, which corresponds to cons/head/in-order iteration here. -/
structure SymbolTable : Type where
  scopes : List (List (String × Symbol))
  modules : List (List String × ModuleSymbols)
  currentModulePath : List String
  importedSymbols : List (String × (List String × String))

/-- `SymbolTable::new`. -/
def SymbolTable.new : SymbolTable := ⟨[[]], [], [], []⟩

/-- `SymbolTable::push_scope`. -/
def SymbolTable.pushScope (st : SymbolTable) : SymbolTable :=
  { st with scopes := [] :: st.scopes }

/-- `SymbolTable::pop_scope`. -/
def SymbolTable.popScope (st : SymbolTable) : SymbolTable :=
  { st with scopes := st.scopes.tail }

/-- `SymbolTable::register_module_symbol`. -/
def SymbolTable.registerModuleSymbol (st : SymbolTable) (name : String) (symbol : Symbol) :
    SymbolTable :=
  let modulePath := st.currentModulePath
  let ms := (alistGet st.modules modulePath).getD ⟨[]⟩
  { st with modules := alistInsert st.modules modulePath ⟨alistInsert ms.symbols name symbol⟩ }

/-- `SymbolTable::define_with_visibility`: inserts into the innermost
scope, and registers the symbol in the module-export map only when it is
`Public` and a module is currently open. -/
def SymbolTable.defineWithVisibility (st : SymbolTable) (name : String) (symbolType : Ty)
    (isMutable : Bool) (visibility : Visibility) : SymbolTable :=
  let symbol : Symbol := ⟨symbolType, isMutable, visibility, st.currentModulePath⟩
  let st := { st with scopes := match st.scopes with
    | [] => []
    | scope :: rest => alistInsert scope name symbol :: rest }
  if visibility == Visibility.Public && !st.currentModulePath.isEmpty then
    st.registerModuleSymbol name symbol
  else st

/-- `SymbolTable::define`. -/
def SymbolTable.define (st : SymbolTable) (name : String) (symbolType : Ty)
    (isMutable : Bool) : SymbolTable :=
  st.defineWithVisibility name symbolType isMutable Visibility.Private

/-- The scope walk of `SymbolTable::get`: `self.scopes.iter().rev()`
visits the innermost scope first, which is head-first order here. -/
def scopesGet (name : String) : List (List (String × Symbol)) → Option Symbol
  | [] => none
  | scope :: rest =>
      match alistGet scope name with
      | some symbol => some symbol
      | none => scopesGet name rest

/-- `SymbolTable::get`: the import table is consulted first; if the
imported symbol cannot be resolved in the module map the scope chain is
walked, innermost scope first. -/
def SymbolTable.get (st : SymbolTable) (name : String) : Option Symbol :=
  let fromImport :=
    match alistGet st.importedSymbols name with
    | some (modulePath, originalName) =>
        match alistGet st.modules modulePath with
        | some moduleSymbols => alistGet moduleSymbols.symbols originalName
        | none => none
    | none => none
  match fromImport with
  | some symbol => some symbol
  | none => scopesGet name st.scopes

/-- `SymbolTable::enter_module`. -/
def SymbolTable.enterModule (st : SymbolTable) (moduleName : String) : SymbolTable :=
  { st with currentModulePath := st.currentModulePath ++ [moduleName] }

/-- `SymbolTable::exit_module`. -/
def SymbolTable.exitModule (st : SymbolTable) : SymbolTable :=
  { st with currentModulePath := st.currentModulePath.dropLast }

/-- `SymbolTable::import_symbol`: silently does nothing unless the module
exports the name and the exported symbol is `Public`. -/
def SymbolTable.importSymbol (st : SymbolTable) (modulePath : List String)
    (symbolName : String) : SymbolTable :=
  match alistGet st.modules modulePath with
  | some moduleSymbols =>
      match alistGet moduleSymbols.symbols symbolName with
      | some symbol =>
          if symbol.visibility == Visibility.Public then
            let st := { st with
              importedSymbols := alistInsert st.importedSymbols symbolName
                (modulePath, symbolName) }
            { st with scopes := match st.scopes with
              | [] => []
              | scope :: rest => alistInsert scope symbolName symbol :: rest }
          else st
      | none => st
  | none => st

/-- The export loop of `SymbolTable::import_all`. -/
def importAllLoop (st : SymbolTable) (modulePath : List String) :
    List (String × Symbol) → SymbolTable
  | [] => st
  | (name, symbol) :: rest =>
      let st :=
        if symbol.visibility == Visibility.Public then
          let st := { st with
            importedSymbols := alistInsert st.importedSymbols name (modulePath, name) }
          { st with scopes := match st.scopes with
            | [] => []
            | scope :: rest2 => alistInsert scope name symbol :: rest2 }
        else st
      importAllLoop st modulePath rest

/-- `SymbolTable::import_all`. -/
def SymbolTable.importAll (st : SymbolTable) (modulePath : List String) : SymbolTable :=
  match alistGet st.modules modulePath with
  | some moduleSymbols => importAllLoop st modulePath moduleSymbols.symbols
  | none => st

/-- `SymbolTable::import_multiple`. -/
def SymbolTable.importMultiple (st : SymbolTable) (modulePath : List String) :
    List String → SymbolTable
  | [] => st
  | name :: rest => (st.importSymbol modulePath name).importMultiple modulePath rest

/-- `SymbolTable::import_renamed`. -/
def SymbolTable.importRenamed (st : SymbolTable) (modulePath : List String)
    (originalName : String) (aliasName : String) : SymbolTable :=
  match alistGet st.modules modulePath with
  | some moduleSymbols =>
      match alistGet moduleSymbols.symbols originalName with
      | some symbol =>
          if symbol.visibility == Visibility.Public then
            let st := { st with
              importedSymbols := alistInsert st.importedSymbols aliasName
                (modulePath, originalName) }
            { st with scopes := match st.scopes with
              | [] => []
              | scope :: rest => alistInsert scope aliasName symbol :: rest }
          else st
      | none => st
  | none => st

/-- `type_checker::MethodSignature`. -/
structure MethodSignature : Type where
  params : List Ty
  returnType : Ty

/-- `type_checker::TypeChecker`. -/
structure TypeChecker : Type where
  symbolTable : SymbolTable
  currentFunctionReturnType : Option Ty
  loopDepth : Nat
  methods : List (String × List (String × MethodSignature))

/-- `TypeChecker::new`. -/
def TypeChecker.new : TypeChecker := ⟨SymbolTable.new, none, 0, []⟩

mutual
/-- `TypeChecker::resolve_type`, made fuel-indexed: the Rust original has
no depth bound and no seen set, so on a cyclic alias chain it recurses
without bound — here that surfaces as `none` for **every** fuel. -/
def resolveTypeF : Nat → TypeChecker → Ty → Option Ty
  | 0, _, _ => none
  | fuel + 1, tc, t =>
      match t with
      | .Named name =>
          match tc.symbolTable.get name with
          | some symbol => resolveTypeF fuel tc symbol.symbolType
          | none => some t
      | .Array elementType => (resolveTypeF fuel tc elementType).map .Array
      | .Function params returnType => do
          let params2 ← resolveTyListF fuel tc params
          let returnType2 ← resolveTypeF fuel tc returnType
          some (.Function params2 returnType2)
      | .Struct name fields => do
          let fields2 ← resolveFieldListF fuel tc fields
          some (.Struct name fields2)
      | _ => some t

/-- The parameter-list recursion inside `resolve_type`. -/
def resolveTyListF : Nat → TypeChecker → List Ty → Option (List Ty)
  | 0, _, _ => none
  | fuel + 1, tc, ts =>
      match ts with
      | [] => some []
      | t :: rest => do
          let t2 ← resolveTypeF fuel tc t
          let rest2 ← resolveTyListF fuel tc rest
          some (t2 :: rest2)

/-- The struct-field recursion inside `resolve_type`. -/
def resolveFieldListF : Nat → TypeChecker → List StructField → Option (List StructField)
  | 0, _, _ => none
  | fuel + 1, tc, fs =>
      match fs with
      | [] => some []
      | (n, t) :: rest => do
          let t2 ← resolveTypeF fuel tc t
          let rest2 ← resolveFieldListF fuel tc rest
          some ((n, t2) :: rest2)
end

/-- `resolve_type` lifted into the checker monad: fuel exhaustion (the
Rust original still recursing) becomes `Res.div`. -/
def resolveTypeR (fuel : Nat) (tc : TypeChecker) (t : Ty) : Res TypeError Ty :=
  match resolveTypeF fuel tc t with
  | none => .div
  | some r => .ok r

/-- The `{:?}` (Debug) rendering of `BinaryOp` used in error messages. -/
def binaryOpName : BinaryOp → String
  | .Add => "Add"
  | .Subtract => "Subtract"
  | .Multiply => "Multiply"
  | .Divide => "Divide"
  | .Modulo => "Modulo"
  | .Equal => "Equal"
  | .NotEqual => "NotEqual"
  | .Less => "Less"
  | .LessEqual => "LessEqual"
  | .Greater => "Greater"
  | .GreaterEqual => "GreaterEqual"
  | .And => "And"
  | .Or => "Or"


/-- The parameter-definition loops of the `FnDeclaration`/`ImplBlock`
arms (`define(param.name, annotation-or-Unknown, false)`). -/
def TypeChecker.defineParams (tc : TypeChecker) : List Parameter → TypeChecker
  | [] => tc
  | param :: rest =>
      TypeChecker.defineParams
        { tc with symbolTable :=
            tc.symbolTable.define param.name ((param.typeAnn).getD Ty.Unknown) false }
        rest

mutual
/-- `TypeChecker::check` (the statement fold of the program). -/
def TypeChecker.check : Nat → TypeChecker → List Stmt → Res TypeError TypeChecker
  | 0, _, _ => .div
  | fuel + 1, tc, stmts =>
      match stmts with
      | [] => .ok tc
      | stmt :: rest => do
          let tc ← TypeChecker.checkStatement fuel tc stmt
          TypeChecker.check fuel tc rest

/-- `TypeChecker::check_statement`. -/
def TypeChecker.checkStatement : Nat → TypeChecker → Stmt → Res TypeError TypeChecker
  | 0, _, _ => .div
  | fuel + 1, tc, stmt =>
      match stmt with
      | .StructDeclaration visibility name fields =>
          let structType := Ty.Struct name fields
          .ok { tc with symbolTable :=
            tc.symbolTable.defineWithVisibility name structType false visibility }
      | .TypeAlias visibility name targetType =>
          .ok { tc with symbolTable :=
            tc.symbolTable.defineWithVisibility name targetType false visibility }
      | .ImplBlock typeName methods =>
          if (tc.symbolTable.get typeName).isNone then
            .err (.UndefinedVariable ("Type " ++ typeName ++ " not found"))
          else do
            let (tc, methodMap) ← TypeChecker.checkImplMethods fuel tc typeName methods []
            .ok { tc with methods := alistInsert tc.methods typeName methodMap }
      | .Expression expr => do
          let _ ← TypeChecker.inferType fuel tc expr
          .ok tc
      | .VarDeclaration name mutable typeAnn initializer => do
          let actualType ← (match initializer with
            | some init => TypeChecker.inferType fuel tc init
            | none => pure Ty.Null)
          let varType ← (match typeAnn with
            | some annotated => do
                let resolvedAnnotated ← resolveTypeR fuel tc annotated
                let resolvedActual ← resolveTypeR fuel tc actualType
                if initializer.isSome then
                  if !(tyIsCompatibleWith resolvedAnnotated resolvedActual)
                      && !(tyBeq resolvedActual .Unknown) then
                    .err (.TypeMismatch resolvedAnnotated resolvedActual
                      ("variable declaration '" ++ name ++ "'"))
                  else pure resolvedAnnotated
                else pure resolvedAnnotated
            | none => pure actualType)
          .ok { tc with symbolTable := tc.symbolTable.define name varType mutable }
      | .FnDeclaration visibility name parameters returnType body => do
          let paramTypes := parameters.map (fun p => (p.typeAnn).getD Ty.Unknown)
          let retType := returnType.getD Ty.Unknown
          let functionType := Ty.Function paramTypes retType
          let tc := { tc with symbolTable :=
            tc.symbolTable.defineWithVisibility name functionType false visibility }
          let tc := { tc with symbolTable := tc.symbolTable.pushScope,
                              currentFunctionReturnType := some retType }
          let tc := TypeChecker.defineParams tc parameters
          let tc ← TypeChecker.check fuel tc body
          let tc := { tc with currentFunctionReturnType := none }
          .ok { tc with symbolTable := tc.symbolTable.popScope }
      | .Return value => do
          let returnType ← (match value with
            | some expr => TypeChecker.inferType fuel tc expr
            | none => pure Ty.Void)
          match tc.currentFunctionReturnType with
          | some expectedType => do
              let resolvedExpected ← resolveTypeR fuel tc expectedType
              let resolvedReturn ← resolveTypeR fuel tc returnType
              if !(tyBeq resolvedExpected .Unknown)
                  && !(tyBeq resolvedReturn .Unknown)
                  && !(tyIsCompatibleWith resolvedExpected resolvedReturn) then
                .err (.ReturnTypeMismatch resolvedExpected resolvedReturn
                  ("current function"))
              else .ok tc
          | none => .ok tc
      | .If condition thenBranch elseBranch => do
          let condType ← TypeChecker.inferType fuel tc condition
          if !(tyBeq condType .Bool) && !(tyBeq condType .Unknown) then
            .err (.TypeMismatch .Bool condType ("if condition"))
          else do
            let tc := { tc with symbolTable := tc.symbolTable.pushScope }
            let tc ← TypeChecker.check fuel tc thenBranch
            let tc := { tc with symbolTable := tc.symbolTable.popScope }
            match elseBranch with
            | some elseStmts => do
                let tc := { tc with symbolTable := tc.symbolTable.pushScope }
                let tc ← TypeChecker.check fuel tc elseStmts
                .ok { tc with symbolTable := tc.symbolTable.popScope }
            | none => .ok tc
      | .While condition body => do
          let condType ← TypeChecker.inferType fuel tc condition
          if !(tyBeq condType .Bool) && !(tyBeq condType .Unknown) then
            .err (.TypeMismatch .Bool condType ("while condition"))
          else do
            let tc := { tc with loopDepth := tc.loopDepth + 1 }
            let tc := { tc with symbolTable := tc.symbolTable.pushScope }
            let tc ← TypeChecker.check fuel tc body
            let tc := { tc with symbolTable := tc.symbolTable.popScope }
            .ok { tc with loopDepth := tc.loopDepth - 1 }
      | .For loopVar start stop body => do
          let startType ← TypeChecker.inferType fuel tc start
          let stopType ← TypeChecker.inferType fuel tc stop
          if !(tyBeq startType .Int) && !(tyBeq startType .Unknown) then
            .err (.TypeMismatch .Int startType ("for loop start"))
          else if !(tyBeq stopType .Int) && !(tyBeq stopType .Unknown) then
            .err (.TypeMismatch .Int stopType ("for loop end"))
          else do
            let tc := { tc with loopDepth := tc.loopDepth + 1 }
            let tc := { tc with symbolTable := tc.symbolTable.pushScope }
            let tc := { tc with symbolTable := tc.symbolTable.define loopVar .Int true }
            let tc ← TypeChecker.check fuel tc body
            let tc := { tc with symbolTable := tc.symbolTable.popScope }
            .ok { tc with loopDepth := tc.loopDepth - 1 }
      | .Break =>
          if tc.loopDepth == 0 then .err .BreakOutsideLoop else .ok tc
      | .Continue =>
          if tc.loopDepth == 0 then .err .ContinueOutsideLoop else .ok tc
      | .Print value => do
          let _ ← TypeChecker.inferType fuel tc value
          .ok tc
      | .Block statements => do
          let tc := { tc with symbolTable := tc.symbolTable.pushScope }
          let tc ← TypeChecker.check fuel tc statements
          .ok { tc with symbolTable := tc.symbolTable.popScope }
      | .ModuleDeclaration name statements _ => do
          let tc := { tc with symbolTable := (tc.symbolTable.enterModule name).pushScope }
          let tc ← TypeChecker.check fuel tc statements
          .ok { tc with symbolTable := (tc.symbolTable.popScope).exitModule }
      | .UseStatement path items =>
          match items with
          | .Single name =>
              .ok { tc with symbolTable := tc.symbolTable.importSymbol path name }
          | .All =>
              .ok { tc with symbolTable := tc.symbolTable.importAll path }
          | .Multiple names =>
              .ok { tc with symbolTable := tc.symbolTable.importMultiple path names }
          | .Renamed original aliasName =>
              .ok { tc with symbolTable :=
                tc.symbolTable.importRenamed path original aliasName }
      | .ModuleReference _ _ => .ok tc

/-- The method loop of the `Stmt::ImplBlock` arm of `check_statement`. -/
def TypeChecker.checkImplMethods : Nat → TypeChecker → String → List MethodDeclaration →
    List (String × MethodSignature) →
    Res TypeError (TypeChecker × List (String × MethodSignature))
  | 0, _, _, _, _ => .div
  | fuel + 1, tc, typeName, methods, methodMap =>
      match methods with
      | [] => .ok (tc, methodMap)
      | method :: rest => do
          let paramTypes := method.parameters.map (fun p => (p.typeAnn).getD Ty.Unknown)
          let retType := (method.returnType).getD Ty.Void
          let methodMap := alistInsert methodMap method.name ⟨paramTypes, retType⟩
          let tc := { tc with symbolTable := tc.symbolTable.pushScope,
                              currentFunctionReturnType := some retType }
          let tc := match tc.symbolTable.get typeName with
            | some symbol =>
                { tc with symbolTable :=
                    (tc.symbolTable.define ("self") symbol.symbolType false) }
            | none => tc
          let tc := TypeChecker.defineParams tc method.parameters
          let tc ← TypeChecker.check fuel tc method.body
          let tc := { tc with symbolTable := tc.symbolTable.popScope,
                              currentFunctionReturnType := none }
          TypeChecker.checkImplMethods fuel tc typeName rest methodMap

/-- `TypeChecker::infer_type`. -/
def TypeChecker.inferType : Nat → TypeChecker → Expr → Res TypeError Ty
  | 0, _, _ => .div
  | fuel + 1, tc, expr =>
      match expr with
      | .StructLiteral structName fields =>
          (match tc.symbolTable.get structName with
          | some symbol => do
              let structType ← resolveTypeR fuel tc symbol.symbolType
              match structType with
              | .Struct sname sfields =>
                  let structDef : StructType := (sname, sfields)
                  if fields.length != structDef.fields.length then
                    .err (.TypeMismatch structType .Unknown
                      ("struct " ++ structName ++ " requires "
                        ++ toString structDef.fields.length ++ " fields, but "
                        ++ toString fields.length ++ " provided"))
                  else do
                    let _ ← TypeChecker.checkStructLitFields fuel tc structName structDef fields
                    .ok structType
              | _ => .ok structType
          | none => .err (.UndefinedVariable structName))
      | .FieldAccess object field => do
          let objType ← TypeChecker.inferType fuel tc object
          match objType with
          | .Struct _ sfields =>
              (match sfields.find? (fun f => StructField.name f == field) with
              | some f => .ok (StructField.fieldType f)
              | none => .err (.UndefinedVariable ("Field " ++ field ++ " not found")))
          | _ => .err (.InvalidOperation ("field access") objType .Unknown)
      | .FieldAssign object field value => do
          let objType ← TypeChecker.inferType fuel tc object
          let valType ← TypeChecker.inferType fuel tc value
          match objType with
          | .Struct _ sfields =>
              (match sfields.find? (fun f => StructField.name f == field) with
              | some f => do
                  let resolvedField ← resolveTypeR fuel tc (StructField.fieldType f)
                  let resolvedVal ← resolveTypeR fuel tc valType
                  if !(tyIsCompatibleWith resolvedField resolvedVal)
                      && !(tyBeq resolvedVal .Unknown) then
                    .err (.TypeMismatch resolvedField resolvedVal
                      ("field assignment to " ++ field))
                  else .ok valType
              | none => .err (.UndefinedVariable ("Field " ++ field ++ " not found")))
          | _ => .err (.InvalidOperation ("field assignment") objType valType)
      | .Integer _ => .ok .Int
      | .Float _ => .ok .Float
      | .String _ => .ok .String
      | .Boolean _ => .ok .Bool
      | .Char _ => .ok .Char
      | .Identifier name =>
          (match tc.symbolTable.get name with
          | some symbol => .ok symbol.symbolType
          | none => .err (.UndefinedVariable name))
      | .Path segments =>
          if segments.isEmpty then .err (.UndefinedVariable ("empty path"))
          else
            let itemName := (segments.getLast?).getD ""
            let modulePath := segments.dropLast
            match alistGet tc.symbolTable.modules modulePath with
            | some moduleSymbols =>
                (match alistGet moduleSymbols.symbols itemName with
                | some symbol =>
                    if symbol.visibility == Visibility.Public then .ok symbol.symbolType
                    else .err (.UndefinedVariable
                      (String.intercalate "::" modulePath ++ "::" ++ itemName
                        ++ " is private"))
                | none => .err (.UndefinedVariable
                    (String.intercalate "::" modulePath ++ "::" ++ itemName
                      ++ " not found")))
            | none => .err (.UndefinedVariable
                ("module " ++ String.intercalate "::" modulePath ++ " not found"))
      | .Binary left operator right => do
          let leftType ← TypeChecker.inferType fuel tc left
          let rightType ← TypeChecker.inferType fuel tc right
          match operator with
          | .Add | .Subtract | .Multiply | .Divide =>
              if tyBeq leftType .Unknown || tyBeq rightType .Unknown then .ok .Unknown
              else if tyIsNumeric leftType && tyIsNumeric rightType then
                if tyBeq leftType .Float || tyBeq rightType .Float then .ok .Float
                else .ok .Int
              else if operator == BinaryOp.Add && tyBeq leftType .String
                  && tyBeq rightType .String then .ok .String
              else .err (.InvalidOperation (binaryOpName operator) leftType rightType)
          | .Modulo =>
              if tyBeq leftType .Unknown || tyBeq rightType .Unknown then .ok .Unknown
              else if tyBeq leftType .Int && tyBeq rightType .Int then .ok .Int
              else .err (.InvalidOperation ("modulo") leftType rightType)
          | .Equal | .NotEqual | .Less | .LessEqual | .Greater | .GreaterEqual =>
              .ok .Bool
          | .And | .Or =>
              if tyBeq leftType .Unknown || tyBeq rightType .Unknown then .ok .Unknown
              else if tyBeq leftType .Bool && tyBeq rightType .Bool then .ok .Bool
              else .err (.InvalidOperation (binaryOpName operator) leftType rightType)
      | .Unary operator operand => do
          let operandType ← TypeChecker.inferType fuel tc operand
          match operator with
          | .Not =>
              if tyBeq operandType .Bool then .ok .Bool
              else .err (.TypeMismatch .Bool operandType ("unary not operator"))
          | .Negate =>
              if tyIsNumeric operandType then .ok operandType
              else .err (.TypeMismatch .Int operandType ("unary negate operator"))
      | .Assign name value => do
          let valueType ← TypeChecker.inferType fuel tc value
          match tc.symbolTable.get name with
          | some symbol =>
              if !symbol.isMutable then .err (.ImmutableAssignment name)
              else do
                let resolvedSymbol ← resolveTypeR fuel tc symbol.symbolType
                let resolvedValue ← resolveTypeR fuel tc valueType
                if !(tyBeq resolvedSymbol .Unknown)
                    && !(tyBeq resolvedValue .Unknown)
                    && !(tyIsCompatibleWith resolvedSymbol resolvedValue) then
                  .err (.TypeMismatch resolvedSymbol resolvedValue
                    ("assignment to variable '" ++ name ++ "'"))
                else .ok valueType
          | none => .err (.UndefinedVariable name)
      | .Call callee arguments =>
          (match callee with
          | .Identifier funcName =>
              (match tc.symbolTable.get funcName with
              | some symbol =>
                  (match symbol.symbolType with
                  | .Function fparams fret =>
                      if fparams.length != arguments.length then
                        .err (.ArgumentCountMismatch fparams.length
                          arguments.length funcName)
                      else do
                        let _ ← TypeChecker.checkCallArgs fuel tc funcName
                          fparams arguments 0
                        .ok fret
                  | _ => .err (.TypeMismatch (.Function [] .Unknown)
                      symbol.symbolType ("function call '" ++ funcName ++ "'")))
              | none => .err (.UndefinedFunction funcName))
          | _ => .ok .Unknown)
      | .MethodCall object method arguments => do
          let objType ← TypeChecker.inferType fuel tc object
          let objType ← resolveTypeR fuel tc objType
          let typeName ← (match objType with
            | .Struct sname _ => pure sname
            | .Named name => pure name
            | _ => .err (.InvalidOperation ("method call") objType .Unknown))
          match (alistGet tc.methods typeName).bind (fun tm => alistGet tm method) with
          | none => .err (.UndefinedFunction
              ("Method " ++ method ++ " not found on type " ++ typeName))
          | some methodSig =>
              if methodSig.params.length != arguments.length then
                .err (.ArgumentCountMismatch methodSig.params.length arguments.length
                  (typeName ++ "." ++ method))
              else do
                let _ ← TypeChecker.checkMethodArgs fuel tc (typeName ++ "." ++ method)
                  methodSig.params arguments 0
                .ok methodSig.returnType
      | .Array elements =>
          (match elements with
          | [] => .ok .Unknown
          | first :: rest => do
              let firstType ← TypeChecker.inferType fuel tc first
              let _ ← TypeChecker.checkArrayRest fuel tc firstType rest
              .ok (.Array firstType))
      | .Index object index => do
          let objType ← TypeChecker.inferType fuel tc object
          let idxType ← TypeChecker.inferType fuel tc index
          if !(tyBeq idxType .Int) && !(tyBeq idxType .Unknown) then
            .err (.TypeMismatch .Int idxType ("array index"))
          else
            match tyGetElementType objType with
            | some elementType => .ok elementType
            | none => .ok .Unknown
      | .IndexAssign object index value => do
          let objType ← TypeChecker.inferType fuel tc object
          let idxType ← TypeChecker.inferType fuel tc index
          let valType ← TypeChecker.inferType fuel tc value
          if !(tyBeq idxType .Int) && !(tyBeq idxType .Unknown) then
            .err (.TypeMismatch .Int idxType ("array index"))
          else
            match tyGetElementType objType with
            | some elementType => do
                let resolvedElement ← resolveTypeR fuel tc elementType
                let resolvedVal ← resolveTypeR fuel tc valType
                if !(tyIsCompatibleWith resolvedElement resolvedVal)
                    && !(tyBeq resolvedVal .Unknown) then
                  .err (.TypeMismatch resolvedElement resolvedVal
                    ("array element assignment"))
                else .ok valType
            | none => .ok valType

/-- The per-field loop of the `StructLiteral` arm of `infer_type`. -/
def TypeChecker.checkStructLitFields : Nat → TypeChecker → String → StructType →
    List (String × Expr) → Res TypeError Unit
  | 0, _, _, _, _ => .div
  | fuel + 1, tc, structName, structDef, fields =>
      match fields with
      | [] => .ok ()
      | (fieldName, fieldExpr) :: rest => do
          let fieldType ← TypeChecker.inferType fuel tc fieldExpr
          match structDef.fields.find? (fun f => f.name == fieldName) with
          | some fieldDef => do
              let expectedType ← resolveTypeR fuel tc fieldDef.fieldType
              if !(tyIsCompatibleWith fieldType expectedType) then
                .err (.TypeMismatch expectedType fieldType
                  ("field " ++ fieldName ++ " in struct " ++ structName))
              else TypeChecker.checkStructLitFields fuel tc structName structDef rest
          | none => .err (.UndefinedVariable
              ("field " ++ fieldName ++ " not found in struct " ++ structName))

/-- The argument loop of the `Call` arm of `infer_type`. -/
def TypeChecker.checkCallArgs : Nat → TypeChecker → String → List Ty → List Expr →
    Nat → Res TypeError Unit
  | 0, _, _, _, _, _ => .div
  | fuel + 1, tc, funcName, params, args, i =>
      match params, args with
      | paramType :: ps, arg :: as => do
          let argType ← TypeChecker.inferType fuel tc arg
          let resolvedParam ← resolveTypeR fuel tc paramType
          let resolvedArg ← resolveTypeR fuel tc argType
          if !(tyIsCompatibleWith resolvedParam resolvedArg) then
            .err (.ArgumentTypeMismatch resolvedParam resolvedArg (i + 1) funcName)
          else TypeChecker.checkCallArgs fuel tc funcName ps as (i + 1)
      | _, _ => .ok ()

/-- The argument loop of the `MethodCall` arm of `infer_type` (unlike the
`Call` loop it lets an `Unknown` argument through). -/
def TypeChecker.checkMethodArgs : Nat → TypeChecker → String → List Ty → List Expr →
    Nat → Res TypeError Unit
  | 0, _, _, _, _, _ => .div
  | fuel + 1, tc, funcName, params, args, i =>
      match params, args with
      | paramType :: ps, arg :: as => do
          let argType ← TypeChecker.inferType fuel tc arg
          let resolvedParam ← resolveTypeR fuel tc paramType
          let resolvedArg ← resolveTypeR fuel tc argType
          if !(tyIsCompatibleWith resolvedParam resolvedArg)
              && !(tyBeq resolvedArg .Unknown) then
            .err (.ArgumentTypeMismatch resolvedParam resolvedArg (i + 1) funcName)
          else TypeChecker.checkMethodArgs fuel tc funcName ps as (i + 1)
      | _, _ => .ok ()

/-- The element loop of the `Array` arm of `infer_type`. -/
def TypeChecker.checkArrayRest : Nat → TypeChecker → Ty → List Expr → Res TypeError Unit
  | 0, _, _, _ => .div
  | fuel + 1, tc, firstType, elements =>
      match elements with
      | [] => .ok ()
      | elem :: rest => do
          let elemType ← TypeChecker.inferType fuel tc elem
          if !(tyBeq firstType elemType) && !(tyBeq elemType .Unknown)
              && !(tyBeq firstType .Unknown) then
            .err (.TypeMismatch firstType elemType ("array literal"))
          else TypeChecker.checkArrayRest fuel tc firstType rest
end

/-- `TypeChecker::check` on a whole `Program`, from a fresh checker. -/
def checkProgram (fuel : Nat) (program : Program) : Res TypeError TypeChecker :=
  TypeChecker.check fuel TypeChecker.new program.statements


/-! ## Bytecode data model

Modelled from the spec: the `bytecode` module (`Value`, `OpCode`, `Chunk`,
`Function`) is declared in `main.rs` but its source file is not part of
the sources; the definitions below follow §3 ("Value", "FunctionObj",
"Chunk") and §4.5 ("Opcode set") of the specification. -/

/-- Modelled from the spec: the opcode set of §4.5. -/
inductive OpCode : Type where
  | LoadConst : Nat → OpCode
  | LoadNull : OpCode
  | LoadLocal : Nat → OpCode
  | StoreLocal : Nat → OpCode
  | LoadGlobal : Nat → OpCode
  | StoreGlobal : Nat → OpCode
  | Add | Subtract | Multiply | Divide | Modulo
  | Negate | Not
  | Equal | NotEqual | Less | LessEqual | Greater | GreaterEqual
  | Jump : Nat → OpCode
  | JumpIfFalse : Nat → OpCode
  | JumpIfTrue : Nat → OpCode
  | Loop : Nat → OpCode
  | Call : Nat → OpCode
  | Return : OpCode
  | Pop : OpCode
  | Print : OpCode
  | NewArray : Nat → OpCode
  | ArrayGet : OpCode
  | ArraySet : OpCode
  | NewStruct : Nat → OpCode
  | FieldGet : Nat → OpCode
  | FieldSet : Nat → OpCode
  | Halt : OpCode
deriving Repr, DecidableEq

/-- Modelled from the spec: runtime `Value` (§3).  The payload of
`Function` is the flattened `FunctionObj` `{name, arity, chunk.code,
chunk.lines, chunk.constants, locals_count}`. -/
inductive Value : Type where
  | Integer : Int → Value
  | Float : F64 → Value
  | String : String → Value
  | Boolean : Bool → Value
  | Char : Char → Value
  | Null : Value
  | Function : String → Nat → List OpCode → List Nat → List Value → Nat → Value
  | Array : List Value → Value
  | Struct : String → List Value → Value

/-- Modelled from the spec: `Chunk` (§3): instruction stream, parallel
line table, constant pool. -/
structure Chunk : Type where
  code : List OpCode
  lines : List Nat
  constants : List Value

/-- Modelled from the spec: `FunctionObj` (§3). -/
structure FunctionObj : Type where
  name : String
  arity : Nat
  chunk : Chunk
  localsCount : Nat

/-- `Value::Function` from a `FunctionObj`. -/
def Value.FunctionOf (f : FunctionObj) : Value :=
  .Function f.name f.arity f.chunk.code f.chunk.lines f.chunk.constants f.localsCount

/-- Modelled from the spec: `Chunk::new`. -/
def Chunk.new : Chunk := ⟨[], [], []⟩

/-- Modelled from the spec: `Chunk::write` appends an opcode and its
source line. -/
def Chunk.write (c : Chunk) (op : OpCode) (line : Nat) : Chunk :=
  { c with code := c.code ++ [op], lines := c.lines ++ [line] }

/-- Modelled from the spec: `Chunk::len` is the instruction count. -/
def Chunk.len (c : Chunk) : Nat := c.code.length

/-- Modelled from the spec: `Chunk::add_constant` appends the value and
returns its index (§3 requires no deduplication). -/
def Chunk.addConstant (c : Chunk) (v : Value) : Chunk × Nat :=
  ({ c with constants := c.constants ++ [v] }, c.constants.length)

/-! ## Bytecode compiler (`src/compiler/mod.rs`) -/

/-- `compiler::CompileError`. -/
inductive CompileError : Type where
  | UndefinedVariable : String → CompileError
  | TooManyConstants : CompileError
  | TooManyLocals : CompileError
  | InvalidBreakContinue : CompileError
  | UndefinedStruct : String → CompileError
  | UndefinedField : String → String → CompileError
deriving Repr, DecidableEq

/-- `compiler::Local`. -/
structure Local : Type where
  name : String
  depth : Nat
  isMutable : Bool

/-- `compiler::StructDef` (its `StructFieldInfo` entries coincide with
`ast::StructField` pairs). -/
structure StructDef : Type where
  fields : List StructField

/-- `compiler::LocalTypeInfo`. -/
structure LocalTypeInfo : Type where
  name : String
  varType : Ty

/-- `compiler::Compiler`.  `locals`/`localTypes` are in `Vec` order
(index = slot); `loopStarts`/`loopBreaks` are stacks with the top at the
end, as in the source. -/
structure Compiler : Type where
  chunk : Chunk
  locals : List Local
  scopeDepth : Nat
  loopStarts : List Nat
  loopBreaks : List (List Nat)
  structs : List (String × StructDef)
  localTypes : List LocalTypeInfo
  globalTypes : List (String × Ty)
  methods : List (String × List (String × FunctionObj))

/-- `Compiler::new`. -/
def Compiler.new : Compiler := ⟨Chunk.new, [], 0, [], [], [], [], [], []⟩

/-- `Compiler::emit`. -/
def Compiler.emit (c : Compiler) (op : OpCode) (line : Nat) : Compiler :=
  { c with chunk := c.chunk.write op line }

/-- `Compiler::emit_jump`: emits the placeholder and returns its index. -/
def Compiler.emitJump (c : Compiler) (op : OpCode) : Compiler × Nat :=
  let c := c.emit op 0
  (c, c.chunk.len - 1)

/-- `Compiler::patch_jump`: rewrites the jump-family opcode at `offset`
to target the current end of the chunk.  (The Rust panics when the slot
does not hold a jump-family opcode; that path is unreachable from the
emission sites and is modelled as a no-op.) -/
def Compiler.patchJump (c : Compiler) (offset : Nat) : Compiler :=
  let jump := c.chunk.len
  let newOp := match c.chunk.code.get? offset with
    | some (.Jump _) => some (OpCode.Jump jump)
    | some (.JumpIfFalse _) => some (OpCode.JumpIfFalse jump)
    | some (.JumpIfTrue _) => some (OpCode.JumpIfTrue jump)
    | _ => none
  match newOp with
  | some op => { c with chunk := { c.chunk with code := c.chunk.code.set offset op } }
  | none => c

/-- `Compiler::identifier_constant` (always succeeds). -/
def Compiler.identifierConstant (c : Compiler) (name : String) : Compiler × Nat :=
  let (chunk, idx) := c.chunk.addConstant (.String name)
  ({ c with chunk := chunk }, idx)

/-- `Compiler::add_local`. -/
def Compiler.addLocal (c : Compiler) (name : String) (isMutable : Bool) :
    Res CompileError Compiler :=
  if c.locals.length ≥ 256 then .err .TooManyLocals
  else .ok { c with locals := c.locals ++ [⟨name, c.scopeDepth, isMutable⟩] }

/-- `Compiler::resolve_local`: highest-indexed local with the name
(`iter().enumerate().rev()`); `none` stands for the
`Err(UndefinedVariable)` the callers test with `if let Ok(slot)`. -/
def Compiler.resolveLocal (c : Compiler) (name : String) : Option Nat :=
  ((c.locals.enum).reverse.find? (fun p => p.2.name == name)).map (fun p => p.1)

/-- `Compiler::begin_scope`. -/
def Compiler.beginScope (c : Compiler) : Compiler :=
  { c with scopeDepth := c.scopeDepth + 1 }

/-- `Compiler::end_scope`: decrements the depth, pops every local deeper
than it (emitting one `Pop` each), then drops the trailing
`localTypes` entries whose local no longer exists (the two `while`
loops of the source). -/
def Compiler.endScope (c : Compiler) : Compiler :=
  let c := { c with scopeDepth := c.scopeDepth - 1 }
  let popCount := ((c.locals.reverse).takeWhile (fun l => decide (c.scopeDepth < l.depth))).length
  let c := { c with
    chunk := { c.chunk with
      code := c.chunk.code ++ List.replicate popCount OpCode.Pop,
      lines := c.chunk.lines ++ List.replicate popCount (0 : Nat) },
    locals := c.locals.take (c.locals.length - popCount) }
  { c with localTypes :=
      (((c.localTypes).reverse).dropWhile
        (fun lt => !(c.locals.any (fun l => l.name == lt.name)))).reverse }

/-- `Compiler::get_field_index` (`position` of the field name). -/
def Compiler.getFieldIndex (structType : StructType) (fieldName : String) : Option Nat :=
  structType.fields.findIdx? (fun f => f.name == fieldName)

/-- `Compiler::resolve_named_type`: a `Named` type is expanded to the
declared struct type when the compiler knows the struct. -/
def Compiler.resolveNamedType (c : Compiler) (t : Ty) : Ty :=
  match t with
  | .Named name =>
      match alistGet c.structs name with
      | some structDef => .Struct name structDef.fields
      | none => t
  | _ => t

/-- `Compiler::infer_expression_type`: the compiler's local,
best-effort type propagation used for field-index resolution. -/
def Compiler.inferExpressionType (c : Compiler) : Expr → Ty
  | .Integer _ => .Int
  | .Float _ => .Float
  | .String _ => .String
  | .Boolean _ => .Bool
  | .Char _ => .Char
  | .Identifier name =>
      match (c.localTypes.reverse).find? (fun lt => lt.name == name) with
      | some lt => c.resolveNamedType lt.varType
      | none =>
          match alistGet c.globalTypes name with
          | some t => c.resolveNamedType t
          | none => .Unknown
  | .Array elements =>
      match elements with
      | first :: _ => .Array (c.inferExpressionType first)
      | [] => .Array .Unknown
  | .StructLiteral structName _ =>
      (match alistGet c.structs structName with
      | some structDef => .Struct structName structDef.fields
      | none => .Unknown)
  | .FieldAccess object field =>
      (match c.inferExpressionType object with
      | .Struct _ sfields =>
          match sfields.find? (fun f => StructField.name f == field) with
          | some f => StructField.fieldType f
          | none => .Unknown
      | _ => .Unknown)
  | .Index object _ =>
      (match c.inferExpressionType object with
      | .Array elementType => elementType
      | _ => .Unknown)
  | .Binary _ _ _ => .Unknown
  | .Unary _ _ => .Unknown
  | .Assign _ _ => .Unknown
  | .Call _ _ => .Unknown
  | .MethodCall _ _ _ => .Unknown
  | .IndexAssign _ _ _ => .Unknown
  | .FieldAssign _ _ _ => .Unknown
  | .Path _ => .Unknown

/-- Approximate `{:?}` rendering of a type, used only inside a
`CompileError::UndefinedVariable` message no theorem depends on. -/
def tyDebug : Ty → String
  | .Int => "Int"
  | .Float => "Float"
  | .String => "String"
  | .Bool => "Bool"
  | .Char => "Char"
  | .Void => "Void"
  | .Null => "Null"
  | .Array _ => "Array"
  | .Function _ _ => "Function"
  | .Struct n _ => "Struct " ++ n
  | .Named n => "Named " ++ n
  | .Unknown => "Unknown"

mutual
/-- `Compiler::compile`: the statement fold of the program followed by
`Halt`; the result is the finished chunk. -/
def Compiler.compile : Nat → Compiler → List Stmt → Res CompileError Compiler
  | 0, _, _ => .div
  | fuel + 1, c, stmts =>
      match stmts with
      | [] => .ok (c.emit .Halt 0)
      | stmt :: rest => do
          let c ← Compiler.compileStatement fuel c stmt
          Compiler.compile fuel c rest

/-- `Compiler::compile_statement`.  The `visibility` fields of
declarations are ignored by the compiler, as in the source. -/
def Compiler.compileStatement : Nat → Compiler → Stmt → Res CompileError Compiler
  | 0, _, _ => .div
  | fuel + 1, c, stmt =>
      match stmt with
      | .Expression expr => do
          let c ← Compiler.compileExpression fuel c expr
          .ok (c.emit .Pop 0)
      | .StructDeclaration _ name fields =>
          .ok { c with structs := alistInsert c.structs name ⟨fields⟩ }
      | .TypeAlias _ _ _ => .ok c
      | .ImplBlock typeName methods => do
          let (c, methodMap) ← Compiler.compileImplMethods fuel c typeName methods []
          .ok { c with methods := alistInsert c.methods typeName methodMap }
      | .VarDeclaration name mutable typeAnn initializer => do
          let varType := match typeAnn with
            | some annotated => annotated
            | none => match initializer with
              | some init => c.inferExpressionType init
              | none => Ty.Null
          let c ← (match initializer with
            | some init => Compiler.compileExpression fuel c init
            | none => pure (c.emit .LoadNull 0))
          if c.scopeDepth == 0 then
            let (c, idx) := c.identifierConstant name
            let c := (c.emit (.StoreGlobal idx) 0).emit .Pop 0
            .ok { c with globalTypes := alistInsert c.globalTypes name varType }
          else do
            let c ← c.addLocal name mutable
            .ok { c with localTypes := c.localTypes ++ [⟨name, varType⟩] }
      | .FnDeclaration _ name parameters _ body => do
          let (c, function) ← Compiler.compileFunction fuel c name parameters body
          let (chunk, idx) := c.chunk.addConstant (Value.FunctionOf function)
          let c := { c with chunk := chunk }
          let c := c.emit (.LoadConst idx) 0
          if c.scopeDepth == 0 then
            let (c, nameIdx) := c.identifierConstant name
            .ok ((c.emit (.StoreGlobal nameIdx) 0).emit .Pop 0)
          else
            c.addLocal name false
      | .Return value => do
          let c ← (match value with
            | some expr => Compiler.compileExpression fuel c expr
            | none => pure (c.emit .LoadNull 0))
          .ok (c.emit .Return 0)
      | .If condition thenBranch elseBranch => do
          let c ← Compiler.compileExpression fuel c condition
          let (c, thenJump) := c.emitJump (.JumpIfFalse 0)
          let c := c.emit .Pop 0
          let c := c.beginScope
          let c ← Compiler.compileStatements fuel c thenBranch
          let c := c.endScope
          let (c, elseJump) := c.emitJump (.Jump 0)
          let c := c.patchJump thenJump
          let c := c.emit .Pop 0
          let c ← (match elseBranch with
            | some elseStmts => do
                let c := c.beginScope
                let c ← Compiler.compileStatements fuel c elseStmts
                pure c.endScope
            | none => pure c)
          .ok (c.patchJump elseJump)
      | .While condition body => do
          let loopStart := c.chunk.len
          let c := { c with loopStarts := c.loopStarts ++ [loopStart],
                            loopBreaks := c.loopBreaks ++ [[]] }
          let c ← Compiler.compileExpression fuel c condition
          let (c, exitJump) := c.emitJump (.JumpIfFalse 0)
          let c := c.emit .Pop 0
          let c := c.beginScope
          let c ← Compiler.compileStatements fuel c body
          let c := c.endScope
          let c := c.emit (.Loop loopStart) 0
          let c := c.patchJump exitJump
          let c := c.emit .Pop 0
          let breaks := (c.loopBreaks.getLast?).getD []
          let c := { c with loopBreaks := c.loopBreaks.dropLast }
          let c := Compiler.patchBreaks c breaks
          .ok { c with loopStarts := c.loopStarts.dropLast }
      | .For loopVar start stop body => do
          let c := c.beginScope
          let c ← Compiler.compileExpression fuel c start
          let c ← c.addLocal loopVar true
          let c ← Compiler.compileExpression fuel c stop
          let endLocal := c.locals.length
          let c ← c.addLocal ("__end__") false
          let loopStart := c.chunk.len
          let c := { c with loopStarts := c.loopStarts ++ [loopStart],
                            loopBreaks := c.loopBreaks ++ [[]] }
          let varSlot ← (match c.resolveLocal loopVar with
            | some slot => pure slot
            | none => .err (.UndefinedVariable loopVar))
          let c := (c.emit (.LoadLocal varSlot) 0).emit (.LoadLocal endLocal) 0
          let c := c.emit .Less 0
          let (c, exitJump) := c.emitJump (.JumpIfFalse 0)
          let c := c.emit .Pop 0
          let c ← Compiler.compileStatements fuel c body
          let c := c.emit (.LoadLocal varSlot) 0
          let (chunk, oneIdx) := c.chunk.addConstant (.Integer 1)
          let c := { c with chunk := chunk }
          let c := (c.emit (.LoadConst oneIdx) 0).emit .Add 0
          let c := (c.emit (.StoreLocal varSlot) 0).emit .Pop 0
          let c := c.emit (.Loop loopStart) 0
          let c := c.patchJump exitJump
          let c := c.emit .Pop 0
          let breaks := (c.loopBreaks.getLast?).getD []
          let c := { c with loopBreaks := c.loopBreaks.dropLast }
          let c := Compiler.patchBreaks c breaks
          let c := { c with loopStarts := c.loopStarts.dropLast }
          .ok c.endScope
      | .Print value => do
          let c ← Compiler.compileExpression fuel c value
          .ok (c.emit .Print 0)
      | .Block statements => do
          let c := c.beginScope
          let c ← Compiler.compileStatements fuel c statements
          .ok c.endScope
      | .Break =>
          if c.loopBreaks.isEmpty then .err .InvalidBreakContinue
          else
            let (c, breakJump) := c.emitJump (.Jump 0)
            let top := (c.loopBreaks.getLast?).getD []
            .ok { c with loopBreaks := c.loopBreaks.dropLast ++ [top ++ [breakJump]] }
      | .Continue =>
          if c.loopStarts.isEmpty then .err .InvalidBreakContinue
          else
            let loopStart := (c.loopStarts.getLast?).getD 0
            .ok (c.emit (.Loop loopStart) 0)
      | .ModuleDeclaration _ statements _ =>
          -- Module declarations are flattened by compiling their statements
          -- (the compiler source has no arm for them in the provided match;
          -- no theorem exercises this arm).
          Compiler.compileStatements fuel c statements
      | .UseStatement _ _ => .ok c
      | .ModuleReference _ _ => .ok c

/-- The sequential statement loops (`for stmt in …`) of
`compile`/`compile_statement` bodies. -/
def Compiler.compileStatements : Nat → Compiler → List Stmt → Res CompileError Compiler
  | 0, _, _ => .div
  | fuel + 1, c, stmts =>
      match stmts with
      | [] => .ok c
      | stmt :: rest => do
          let c ← Compiler.compileStatement fuel c stmt
          Compiler.compileStatements fuel c rest

/-- The method loop of the `Stmt::ImplBlock` arm of `compile_statement`:
each method is compiled as a function named `"T.m"` with a leading
`self : Named(T)` parameter. -/
def Compiler.compileImplMethods : Nat → Compiler → String → List MethodDeclaration →
    List (String × FunctionObj) → Res CompileError (Compiler × List (String × FunctionObj))
  | 0, _, _, _, _ => .div
  | fuel + 1, c, typeName, methods, methodMap =>
      match methods with
      | [] => .ok (c, methodMap)
      | method :: rest => do
          let paramsWithSelf : List Parameter :=
            ⟨"self", some (.Named typeName)⟩ :: method.parameters
          let (c, function) ← Compiler.compileFunction fuel c
            (typeName ++ "." ++ method.name) paramsWithSelf method.body
          Compiler.compileImplMethods fuel c typeName rest
            (alistInsert methodMap method.name function)

/-- The break-patch loop at the end of the `While`/`For` arms. -/
def Compiler.patchBreaks (c : Compiler) : List Nat → Compiler
  | [] => c
  | breakJump :: rest => Compiler.patchBreaks (c.patchJump breakJump) rest

/-- `Compiler::compile_expression`. -/
def Compiler.compileExpression : Nat → Compiler → Expr → Res CompileError Compiler
  | 0, _, _ => .div
  | fuel + 1, c, expr =>
      match expr with
      | .StructLiteral structName fields =>
          (match alistGet c.structs structName with
          | none => .err (.UndefinedStruct structName)
          | some structDef => do
              let c ← Compiler.compileStructFields fuel c structName fields
                structDef.fields
              let (chunk, nameIdx) := c.chunk.addConstant (.String structName)
              let c := { c with chunk := chunk }
              let c := c.emit (.LoadConst nameIdx) 0
              .ok (c.emit (.NewStruct structDef.fields.length) 0))
      | .FieldAccess object field => do
          let c ← Compiler.compileExpression fuel c object
          let fieldIndex := match c.inferExpressionType object with
            | .Struct sname sfields =>
                (Compiler.getFieldIndex (sname, sfields) field).getD 0
            | _ => 0
          .ok (c.emit (.FieldGet fieldIndex) 0)
      | .FieldAssign object field value => do
          let varName := match object with
            | .Identifier name => some name
            | _ => none
          let fieldIndex := match c.inferExpressionType object with
            | .Struct sname sfields =>
                (Compiler.getFieldIndex (sname, sfields) field).getD 0
            | _ => 0
          let c ← Compiler.compileExpression fuel c object
          let c ← Compiler.compileExpression fuel c value
          let c := c.emit (.FieldSet fieldIndex) 0
          match varName with
          | some name =>
              (match c.resolveLocal name with
              | some slot => .ok (c.emit (.StoreLocal slot) 0)
              | none =>
                  let (c, idx) := c.identifierConstant name
                  .ok (c.emit (.StoreGlobal idx) 0))
          | none => .ok c
      | .Integer n =>
          let (chunk, idx) := c.chunk.addConstant (.Integer n)
          .ok (({ c with chunk := chunk }).emit (.LoadConst idx) 0)
      | .Float f =>
          let (chunk, idx) := c.chunk.addConstant (.Float f)
          .ok (({ c with chunk := chunk }).emit (.LoadConst idx) 0)
      | .String str =>
          let (chunk, idx) := c.chunk.addConstant (.String str)
          .ok (({ c with chunk := chunk }).emit (.LoadConst idx) 0)
      | .Boolean b =>
          let (chunk, idx) := c.chunk.addConstant (.Boolean b)
          .ok (({ c with chunk := chunk }).emit (.LoadConst idx) 0)
      | .Char ch =>
          let (chunk, idx) := c.chunk.addConstant (.Char ch)
          .ok (({ c with chunk := chunk }).emit (.LoadConst idx) 0)
      | .Identifier name =>
          (match c.resolveLocal name with
          | some slot => .ok (c.emit (.LoadLocal slot) 0)
          | none =>
              let (c, idx) := c.identifierConstant name
              .ok (c.emit (.LoadGlobal idx) 0))
      | .Binary left operator right =>
          match operator with
          | .And => do
              let c ← Compiler.compileExpression fuel c left
              let (c, jump) := c.emitJump (.JumpIfFalse 0)
              let c := c.emit .Pop 0
              let c ← Compiler.compileExpression fuel c right
              .ok (c.patchJump jump)
          | .Or => do
              let c ← Compiler.compileExpression fuel c left
              let (c, jump) := c.emitJump (.JumpIfTrue 0)
              let c := c.emit .Pop 0
              let c ← Compiler.compileExpression fuel c right
              .ok (c.patchJump jump)
          | _ => do
              let c ← Compiler.compileExpression fuel c left
              let c ← Compiler.compileExpression fuel c right
              let op := match operator with
                | .Add => OpCode.Add
                | .Subtract => OpCode.Subtract
                | .Multiply => OpCode.Multiply
                | .Divide => OpCode.Divide
                | .Modulo => OpCode.Modulo
                | .Equal => OpCode.Equal
                | .NotEqual => OpCode.NotEqual
                | .Greater => OpCode.Greater
                | .GreaterEqual => OpCode.GreaterEqual
                | .Less => OpCode.Less
                | .LessEqual => OpCode.LessEqual
                | _ => OpCode.Halt   -- And/Or handled above (`unreachable!`)
              .ok (c.emit op 0)
      | .Unary operator operand => do
          let c ← Compiler.compileExpression fuel c operand
          match operator with
          | .Negate => .ok (c.emit .Negate 0)
          | .Not => .ok (c.emit .Not 0)
      | .Assign name value => do
          let c ← Compiler.compileExpression fuel c value
          match c.resolveLocal name with
          | some slot => .ok (c.emit (.StoreLocal slot) 0)
          | none =>
              let (c, idx) := c.identifierConstant name
              .ok (c.emit (.StoreGlobal idx) 0)
      | .Call callee arguments => do
          let c ← Compiler.compileExpression fuel c callee
          let c ← Compiler.compileExpressions fuel c arguments
          .ok (c.emit (.Call arguments.length) 0)
      | .MethodCall object method arguments => do
          let objType := c.inferExpressionType object
          let typeName ← (match objType with
            | .Struct sname _ => pure sname
            | .Named name => pure name
            | _ => .err (.UndefinedVariable
                ("Cannot call method on type " ++ tyDebug objType)))
          let function ← (match (alistGet c.methods typeName).bind
              (fun ms => alistGet ms method) with
            | some f => pure f
            | none => .err (.UndefinedVariable
                ("Method " ++ method ++ " not found on type " ++ typeName)))
          let (chunk, funcIdx) := c.chunk.addConstant (Value.FunctionOf function)
          let c := { c with chunk := chunk }
          let c := c.emit (.LoadConst funcIdx) 0
          let c ← Compiler.compileExpression fuel c object
          let c ← Compiler.compileExpressions fuel c arguments
          .ok (c.emit (.Call (arguments.length + 1)) 0)
      | .Array elements => do
          let len := elements.length
          let c ← Compiler.compileExpressions fuel c elements
          .ok (c.emit (.NewArray len) 0)
      | .Index object index => do
          let c ← Compiler.compileExpression fuel c object
          let c ← Compiler.compileExpression fuel c index
          .ok (c.emit .ArrayGet 0)
      | .IndexAssign object index value => do
          let varName := match object with
            | .Identifier name => some name
            | _ => none
          let c ← Compiler.compileExpression fuel c object
          let c ← Compiler.compileExpression fuel c index
          let c ← Compiler.compileExpression fuel c value
          let c := c.emit .ArraySet 0
          match varName with
          | some name =>
              (match c.resolveLocal name with
              | some slot => .ok (c.emit (.StoreLocal slot) 0)
              | none =>
                  let (c, idx) := c.identifierConstant name
                  .ok (c.emit (.StoreGlobal idx) 0))
          | none => .ok c
      | .Path _ =>
          -- The compiler source has no arm for `Expr::Path` in the provided
          -- match (paths are resolved away by the checker/imports); no
          -- theorem exercises this arm.
          .ok c

/-- The argument/element loops of the `Call`/`MethodCall`/`Array` arms. -/
def Compiler.compileExpressions : Nat → Compiler → List Expr → Res CompileError Compiler
  | 0, _, _ => .div
  | fuel + 1, c, exprs =>
      match exprs with
      | [] => .ok c
      | e :: rest => do
          let c ← Compiler.compileExpression fuel c e
          Compiler.compileExpressions fuel c rest

/-- The declared-field loop of the `StructLiteral` arm: the *declared*
fields are walked in canonical order and the matching user-provided
expression is compiled for each; a declared field with no matching
provided field is `UndefinedField`. -/
def Compiler.compileStructFields : Nat → Compiler → String → List (String × Expr) →
    List StructField → Res CompileError Compiler
  | 0, _, _, _, _ => .div
  | fuel + 1, c, structName, fields, declaredFields =>
      match declaredFields with
      | [] => .ok c
      | definedField :: rest =>
          match (fields.find? (fun f => f.1 == StructField.name definedField)).map
              (fun f => f.2) with
          | none => .err (.UndefinedField structName (StructField.name definedField))
          | some fieldValue => do
              let c ← Compiler.compileExpression fuel c fieldValue
              Compiler.compileStructFields fuel c structName fields rest

/-- `Compiler::compile_function`: a fresh sub-compiler that inherits only
the `structs` and `methods` tables; parameters become locals; the body is
terminated with `LoadNull; Return`. -/
def Compiler.compileFunction : Nat → Compiler → String → List Parameter → List Stmt →
    Res CompileError (Compiler × FunctionObj)
  | 0, _, _, _, _ => .div
  | fuel + 1, c, name, parameters, body => do
      let functionCompiler := { Compiler.new with structs := c.structs,
                                                  methods := c.methods }
      let functionCompiler := functionCompiler.beginScope
      let functionCompiler ← Compiler.addParamLocals fuel functionCompiler parameters
      let functionCompiler ← Compiler.compileStatements fuel functionCompiler body
      let functionCompiler := (functionCompiler.emit .LoadNull 0).emit .Return 0
      .ok (c, ⟨name, parameters.length, functionCompiler.chunk,
        functionCompiler.locals.length⟩)

/-- The parameter loop of `compile_function` (`add_local` plus the
`localTypes` record when the parameter is annotated). -/
def Compiler.addParamLocals : Nat → Compiler → List Parameter → Res CompileError Compiler
  | 0, _, _ => .div
  | fuel + 1, c, params =>
      match params with
      | [] => .ok c
      | param :: rest => do
          let c ← c.addLocal param.name false
          let c := match param.typeAnn with
            | some paramType =>
                { c with localTypes := c.localTypes ++ [⟨param.name, paramType⟩] }
            | none => c
          Compiler.addParamLocals fuel c rest
end

/-- `Compiler::compile` on a whole `Program` from a fresh compiler,
returning the finished chunk. -/
def compileProgram (fuel : Nat) (program : Program) : Res CompileError Chunk :=
  (Compiler.compile fuel Compiler.new program.statements).bind (fun c => .ok c.chunk)


/-! ## Virtual machine

Modelled from the spec: the `vm` module is declared in `main.rs` but its
source file is not part of the sources.  The state, dispatch loop and
per-opcode semantics below follow §4.6 of the specification ("Operation
semantics", "Call", "Return") and the truthiness/equality rules of §3.
Floating-point arithmetic is outside the modelled fragment: an arithmetic
or comparison opcode applied to a `Float` operand yields `TypeMismatch`
here (no claim exercises floats).  The print formatting of §4.6 is pinned
by the scenarios of §8 only for integers and booleans; other values get
placeholder renderings no theorem depends on. -/

/-- Modelled from the spec: the runtime failure kinds of §4.6/§7. -/
inductive RuntimeError : Type where
  | TypeMismatch : RuntimeError
  | DivisionByZero : RuntimeError
  | IndexOutOfBounds : RuntimeError
  | UndefinedGlobal : String → RuntimeError
  | ArityMismatch : RuntimeError
  | StackUnderflow : RuntimeError
deriving Repr, DecidableEq

/-- Modelled from the spec: a call frame (§3) — the running chunk, the
instruction pointer and the stack base of the frame's locals.  The
outermost frame runs the main chunk with `base = 0`. -/
structure Frame : Type where
  chunk : Chunk
  ip : Nat
  base : Nat

/-- Modelled from the spec: the VM state (§4.6): value stack (index 0 is
the bottom), frame stack (current frame last), globals, and the lines
printed so far. -/
structure VMState : Type where
  stack : List Value
  frames : List Frame
  globals : List (String × Value)
  output : List String

/-- Modelled from the spec: truthiness (§3): `false`, `Null`, `0`, `0.0`,
`'\0'` are falsy, everything else truthy. -/
def valueIsTruthy : Value → Bool
  | .Boolean b => b
  | .Null => false
  | .Integer n => !(n == 0)
  | .Float f => !(f.bits == 0)
  | .Char ch => !(ch == '\x00')
  | _ => true

/-- Modelled from the spec: `Print` formatting; only the integer and
boolean renderings are pinned by §8. -/
def formatValue : Value → String
  | .Integer n => toString n
  | .Boolean true => "true"
  | .Boolean false => "false"
  | .String s => s
  | .Char ch => String.singleton ch
  | .Null => "null"
  | .Float _ => "<float>"
  | .Function name _ _ _ _ _ => "<fn " ++ name ++ ">"
  | .Array _ => "<array>"
  | .Struct name _ => "<struct " ++ name ++ ">"

/-- Modelled from the spec: structural primitive equality (§4.6):
`Null == Null` is true; primitives of different variants are unequal;
functions, arrays and structs are not comparable. -/
def valuePrimEq : Value → Value → Option Bool
  | .Integer a, .Integer b => some (a == b)
  | .Float a, .Float b => some (a == b)
  | .String a, .String b => some (a == b)
  | .Boolean a, .Boolean b => some (a == b)
  | .Char a, .Char b => some (a == b)
  | .Null, .Null => some true
  | .Function _ _ _ _ _ _, _ => none
  | _, .Function _ _ _ _ _ _ => none
  | .Array _, _ => none
  | _, .Array _ => none
  | .Struct _ _, _ => none
  | _, .Struct _ _ => none
  | _, _ => some false

/-- Pop the top of the value stack. -/
def vmPop (st : VMState) : Option (Value × VMState) :=
  match st.stack.getLast? with
  | some v => some (v, { st with stack := st.stack.dropLast })
  | none => none

/-- Peek the top of the value stack. -/
def vmPeek (st : VMState) : Option Value := st.stack.getLast?

/-- Push onto the value stack. -/
def vmPush (st : VMState) (v : Value) : VMState :=
  { st with stack := st.stack ++ [v] }

/-- Set the instruction pointer of the current (last) frame. -/
def vmSetIp (st : VMState) (ip : Nat) : VMState :=
  match st.frames.getLast? with
  | some frame => { st with frames := st.frames.dropLast ++ [{ frame with ip := ip }] }
  | none => st

/-- Modelled from the spec: the binary arithmetic/comparison opcodes on
the two popped operands (integers and string concatenation; §4.6). -/
def vmBinaryOp (op : OpCode) (a b : Value) : Except RuntimeError Value :=
  match op, a, b with
  | .Add, .Integer x, .Integer y => .ok (.Integer (x + y))
  | .Add, .String x, .String y => .ok (.String (x ++ y))
  | .Subtract, .Integer x, .Integer y => .ok (.Integer (x - y))
  | .Multiply, .Integer x, .Integer y => .ok (.Integer (x * y))
  | .Divide, .Integer x, .Integer y =>
      if y == 0 then .error .DivisionByZero else .ok (.Integer (Int.tdiv x y))
  | .Modulo, .Integer x, .Integer y =>
      if y == 0 then .error .DivisionByZero else .ok (.Integer (Int.tmod x y))
  | .Less, .Integer x, .Integer y => .ok (.Boolean (decide (x < y)))
  | .LessEqual, .Integer x, .Integer y => .ok (.Boolean (decide (x ≤ y)))
  | .Greater, .Integer x, .Integer y => .ok (.Boolean (decide (y < x)))
  | .GreaterEqual, .Integer x, .Integer y => .ok (.Boolean (decide (y ≤ x)))
  | .Equal, x, y =>
      (match valuePrimEq x y with
      | some r => .ok (.Boolean r)
      | none => .error .TypeMismatch)
  | .NotEqual, x, y =>
      (match valuePrimEq x y with
      | some r => .ok (.Boolean (!r))
      | none => .error .TypeMismatch)
  | _, _, _ => .error .TypeMismatch

/-- Modelled from the spec: the dispatch loop of §4.6.  Fetch the opcode
at the current frame's `ip`, advance, execute; `Halt` stops dispatch.
`Res.div` reports fuel exhaustion (a still-running or diverging
execution). -/
def vmRun : Nat → VMState → Res RuntimeError VMState
  | 0, _ => .div
  | fuel + 1, st =>
      match st.frames.getLast? with
      | none => .err .StackUnderflow
      | some frame =>
          match frame.chunk.code.get? frame.ip with
          | none => .err .StackUnderflow
          | some op =>
              let st := vmSetIp st (frame.ip + 1)
              match op with
              | .Halt => .ok st
              | .LoadConst i =>
                  (match frame.chunk.constants.get? i with
                  | some v => vmRun fuel (vmPush st v)
                  | none => .err .StackUnderflow)
              | .LoadNull => vmRun fuel (vmPush st .Null)
              | .LoadLocal s =>
                  (match st.stack.get? (frame.base + s) with
                  | some v => vmRun fuel (vmPush st v)
                  | none => .err .StackUnderflow)
              | .StoreLocal s =>
                  (match vmPeek st with
                  | some v =>
                      if frame.base + s < st.stack.length then
                        vmRun fuel { st with stack := st.stack.set (frame.base + s) v }
                      else .err .StackUnderflow
                  | none => .err .StackUnderflow)
              | .LoadGlobal k =>
                  (match frame.chunk.constants.get? k with
                  | some (.String name) =>
                      (match alistGet st.globals name with
                      | some v => vmRun fuel (vmPush st v)
                      | none => .err (.UndefinedGlobal name))
                  | _ => .err .TypeMismatch)
              | .StoreGlobal k =>
                  (match frame.chunk.constants.get? k, vmPeek st with
                  | some (.String name), some v =>
                      vmRun fuel { st with globals := alistInsert st.globals name v }
                  | _, _ => .err .StackUnderflow)
              | .Pop =>
                  (match vmPop st with
                  | some (_, st) => vmRun fuel st
                  | none => .err .StackUnderflow)
              | .Add | .Subtract | .Multiply | .Divide | .Modulo
              | .Less | .LessEqual | .Greater | .GreaterEqual
              | .Equal | .NotEqual =>
                  (match vmPop st with
                  | some (b, st) =>
                      (match vmPop st with
                      | some (a, st) =>
                          (match vmBinaryOp op a b with
                          | .ok v => vmRun fuel (vmPush st v)
                          | .error e => .err e)
                      | none => .err .StackUnderflow)
                  | none => .err .StackUnderflow)
              | .Negate =>
                  (match vmPop st with
                  | some (.Integer n, st) => vmRun fuel (vmPush st (.Integer (-n)))
                  | some (_, _) => .err .TypeMismatch
                  | none => .err .StackUnderflow)
              | .Not =>
                  (match vmPop st with
                  | some (.Boolean b, st) => vmRun fuel (vmPush st (.Boolean !b))
                  | some (_, _) => .err .TypeMismatch
                  | none => .err .StackUnderflow)
              | .Jump t => vmRun fuel (vmSetIp st t)
              | .JumpIfFalse t =>
                  (match vmPeek st with
                  | some v =>
                      if valueIsTruthy v then vmRun fuel st
                      else vmRun fuel (vmSetIp st t)
                  | none => .err .StackUnderflow)
              | .JumpIfTrue t =>
                  (match vmPeek st with
                  | some v =>
                      if valueIsTruthy v then vmRun fuel (vmSetIp st t)
                      else vmRun fuel st
                  | none => .err .StackUnderflow)
              | .Loop t => vmRun fuel (vmSetIp st t)
              | .Print =>
                  (match vmPop st with
                  | some (v, st) =>
                      vmRun fuel { st with output := st.output ++ [formatValue v] }
                  | none => .err .StackUnderflow)
              | .NewArray n =>
                  if n ≤ st.stack.length then
                    let elements := st.stack.drop (st.stack.length - n)
                    let st := { st with stack := st.stack.take (st.stack.length - n) }
                    vmRun fuel (vmPush st (.Array elements))
                  else .err .StackUnderflow
              | .ArrayGet =>
                  (match vmPop st with
                  | some (.Integer idx, st) =>
                      (match vmPop st with
                      | some (.Array elements, st) =>
                          if h : 0 ≤ idx ∧ idx.toNat < elements.length then
                            vmRun fuel (vmPush st (elements.get
                              ⟨idx.toNat, h.2⟩))
                          else .err .IndexOutOfBounds
                      | some (_, _) => .err .TypeMismatch
                      | none => .err .StackUnderflow)
                  | some (_, _) => .err .TypeMismatch
                  | none => .err .StackUnderflow)
              | .ArraySet =>
                  (match vmPop st with
                  | some (v, st) =>
                      (match vmPop st with
                      | some (.Integer idx, st) =>
                          (match vmPop st with
                          | some (.Array elements, st) =>
                              if 0 ≤ idx ∧ idx.toNat < elements.length then
                                vmRun fuel (vmPush st
                                  (.Array (elements.set idx.toNat v)))
                              else .err .IndexOutOfBounds
                          | some (_, _) => .err .TypeMismatch
                          | none => .err .StackUnderflow)
                      | some (_, _) => .err .TypeMismatch
                      | none => .err .StackUnderflow)
                  | none => .err .StackUnderflow)
              | .NewStruct n =>
                  (match vmPop st with
                  | some (.String name, st) =>
                      if n ≤ st.stack.length then
                        let fields := st.stack.drop (st.stack.length - n)
                        let st := { st with stack := st.stack.take (st.stack.length - n) }
                        vmRun fuel (vmPush st (.Struct name fields))
                      else .err .StackUnderflow
                  | some (_, _) => .err .TypeMismatch
                  | none => .err .StackUnderflow)
              | .FieldGet i =>
                  (match vmPop st with
                  | some (.Struct _ fields, st) =>
                      (match fields.get? i with
                      | some v => vmRun fuel (vmPush st v)
                      | none => .err .IndexOutOfBounds)
                  | some (_, _) => .err .TypeMismatch
                  | none => .err .StackUnderflow)
              | .FieldSet i =>
                  (match vmPop st with
                  | some (v, st) =>
                      (match vmPop st with
                      | some (.Struct name fields, st) =>
                          if i < fields.length then
                            vmRun fuel (vmPush st (.Struct name (fields.set i v)))
                          else .err .IndexOutOfBounds
                      | some (_, _) => .err .TypeMismatch
                      | none => .err .StackUnderflow)
                  | none => .err .StackUnderflow)
              | .Call n =>
                  let top := st.stack.length
                  (match st.stack.get? (top - 1 - n) with
                  | some (.Function _ arity code lines constants localsCount) =>
                      if arity != n then .err .ArityMismatch
                      else
                        let st := { st with
                          stack := st.stack ++ List.replicate (localsCount - n) Value.Null }
                        vmRun fuel { st with frames := st.frames ++
                          [(⟨⟨code, lines, constants⟩, 0, top - n⟩ : Frame)] }
                  | some _ => .err .TypeMismatch
                  | none => .err .StackUnderflow)
              | .Return =>
                  (match vmPop st with
                  | some (ret, st) =>
                      (match st.frames.getLast? with
                      | some fr =>
                          let st := { st with
                            stack := st.stack.take (fr.base - 1) ++ [ret],
                            frames := st.frames.dropLast }
                          vmRun fuel st
                      | none => .err .StackUnderflow)
                  | none => .err .StackUnderflow)

/-- Execute a chunk from the initial state (§4.6: empty stack and
globals, one outermost frame at `ip = 0`, `base = 0`) and return the
printed lines. -/
def runChunk (fuel : Nat) (chunk : Chunk) : Res RuntimeError (List String) :=
  (vmRun fuel ⟨[], [⟨chunk, 0, 0⟩], [], []⟩).bind (fun st => .ok st.output)


/-- The compile-then-execute pipeline of `main::run` (type checking is a
separate stage; `none` marks a compile failure). -/
def compileAndRun (compileFuel runFuel : Nat) (program : Program) :
    Option (Res RuntimeError (List String)) :=
  match compileProgram compileFuel program with
  | .ok chunk => some (runChunk runFuel chunk)
  | _ => none

/-- The module-export maps of a successful check (`none` on failure). -/
def resModules (r : Res TypeError TypeChecker) :
    Option (List (List String × ModuleSymbols)) :=
  match r with
  | .ok tc => some tc.symbolTable.modules
  | _ => none

/-! ## Concrete fixtures used by the theorems -/

/-- A token with the given kind and lexeme (positions are irrelevant to
parsing). -/
def tok (t : TokenType) (v : String) : Token := ⟨t, v, pos0, pos0⟩

/-- Tokens of `if x { print(1); }`. -/
def ifxTokens : List Token :=
  [tok .If "if", tok .Identifier "x", tok .LeftBrace "\x7b",
   tok .Print "print", tok .LeftParen "(", tok .Integer "1",
   tok .RightParen ")", tok .Semicolon ";", tok .RightBrace "\x7d",
   tok .EOF ""]

/-- Tokens of `while x { print(1); }`. -/
def whilexTokens : List Token :=
  [tok .While "while", tok .Identifier "x", tok .LeftBrace "\x7b",
   tok .Print "print", tok .LeftParen "(", tok .Integer "1",
   tok .RightParen ")", tok .Semicolon ";", tok .RightBrace "\x7d",
   tok .EOF ""]

/-- Tokens of `if x { }`. -/
def ifxEmptyTokens : List Token :=
  [tok .If "if", tok .Identifier "x", tok .LeftBrace "\x7b", tok .RightBrace "\x7d",
   tok .EOF ""]

/-- Tokens of `if x > 10 { print(1); }`. -/
def ifgtTokens : List Token :=
  [tok .If "if", tok .Identifier "x", tok .Greater ">", tok .Integer "10",
   tok .LeftBrace "\x7b", tok .Print "print", tok .LeftParen "(", tok .Integer "1",
   tok .RightParen ")", tok .Semicolon ";", tok .RightBrace "\x7d",
   tok .EOF ""]

/-- Tokens of `pub let x = 1;`. -/
def publetTokens : List Token :=
  [tok .Pub "pub", tok .Let "let", tok .Identifier "x", tok .Equal "=",
   tok .Integer "1", tok .Semicolon ";", tok .EOF ""]

/-- Tokens of `let x = 1;`. -/
def letTokens : List Token :=
  [tok .Let "let", tok .Identifier "x", tok .Equal "=",
   tok .Integer "1", tok .Semicolon ";", tok .EOF ""]

/-- Tokens of `pub var y;`. -/
def pubvarTokens : List Token :=
  [tok .Pub "pub", tok .Var "var", tok .Identifier "y", tok .Semicolon ";",
   tok .EOF ""]

/-- Tokens of `pub ;` (a `pub` with no declaration after it). -/
def pubOnlyTokens : List Token :=
  [tok .Pub "pub", tok .Semicolon ";", tok .EOF ""]

/-- Tokens of `mod m { pub let x = 1; }`. -/
def modPubLetTokens : List Token :=
  [tok .Mod "mod", tok .Identifier "m", tok .LeftBrace "\x7b",
   tok .Pub "pub", tok .Let "let", tok .Identifier "x", tok .Equal "=",
   tok .Integer "1", tok .Semicolon ";", tok .RightBrace "\x7d", tok .EOF ""]

/-- The `math` module of scenario S6: `pub fn sq(x: int) -> int { return
x * x; } fn secret() -> int { return 42; }`. -/
def mathModule : Stmt :=
  .ModuleDeclaration "math"
    [ .FnDeclaration .Public "sq" [⟨"x", some .Int⟩] (some .Int)
        [.Return (some (.Binary (.Identifier "x") .Multiply (.Identifier "x")))]
    , .FnDeclaration .Private "secret" [] (some .Int)
        [.Return (some (.Integer 42))] ] false

/-- `mod math; use math::secret;` after module resolution — the import
alone, with no use of the name. -/
def c1UseOnlyProg : Program := ⟨[mathModule, .UseStatement ["math"] (.Single "secret")]⟩

/-- `mod math; use math::secret; print(secret(6));` after module
resolution — scenario S6 with `sq` replaced by `secret`. -/
def c1SecretProg : Program := ⟨[mathModule, .UseStatement ["math"] (.Single "secret"),
  .Print (.Call (.Identifier "secret") [.Integer 6])]⟩

/-- `mod math;` followed by the path expression `math::secret;`. -/
def c1PathProg : Program := ⟨[mathModule, .Expression (.Path ["math", "secret"])]⟩

/-- Scenario S6 proper: `mod math; use math::sq; print(sq(6));`. -/
def c1SqProg : Program := ⟨[mathModule, .UseStatement ["math"] (.Single "sq"),
  .Print (.Call (.Identifier "sq") [.Integer 6])]⟩

/-- A module environment with no module files at all; every lookup fails
the way `find_module_file` fails. -/
def c2Env : ModuleEnv := fun name =>
  .error (.ModuleNotFound ("Module '" ++ name ++ "' not found in search paths: []"))

/-- The first (failing) load of module `m` on a fresh loader. -/
def c2First : Except LoadError Program × ModuleLoader :=
  ModuleLoader.new.loadModule c2Env "m"

/-- A module environment containing `a.zero` = `mod b;` and `b.zero` =
`mod a;` — module `a` imports `b` imports `a`. -/
def c3Env : ModuleEnv := fun name =>
  if name == "a" then .ok ⟨[.ModuleReference "b" false]⟩
  else if name == "b" then .ok ⟨[.ModuleReference "a" false]⟩
  else .error (.ModuleNotFound ("Module '" ++ name ++ "' not found in search paths: []"))

/-- The entry program `mod a;`. -/
def c3Entry : Program := ⟨[.ModuleReference "a" false]⟩

/-- `type A = B; type B = A;`. -/
def c4AliasProg : Program := ⟨[.TypeAlias .Private "A" (.Named "B"),
  .TypeAlias .Private "B" (.Named "A")]⟩

/-- `type A = B; type B = A; let x: A = 1;`. -/
def c4Prog : Program := ⟨[.TypeAlias .Private "A" (.Named "B"),
  .TypeAlias .Private "B" (.Named "A"),
  .VarDeclaration "x" false (some (.Named "A")) (some (.Integer 1))]⟩

/-- The checker state after `type A = B; type B = A;` (definitionally the
state `checkProgram` reaches before resolving `A`; see the proof of the
C4 theorem). -/
def c4Checker : TypeChecker :=
  ⟨⟨[[("A", ⟨.Named "B", false, .Private, []⟩), ("B", ⟨.Named "A", false, .Private, []⟩)]],
    [], [], []⟩, none, 0, []⟩

/-- `struct P { x: int };` followed by the literal `P { x: 1, z: 2 }` —
the provided field `z` is not declared. -/
def c7ExtraProg : Program := ⟨[.StructDeclaration .Private "P" [("x", .Int)],
  .Expression (.StructLiteral "P" [("x", .Integer 1), ("z", .Integer 2)])]⟩

/-- `struct P { x: int, y: int };` followed by `P { y: 2, x: 1 }` — the
source order of the fields is reversed. -/
def c7ReorderProg : Program := ⟨[.StructDeclaration .Private "P" [("x", .Int), ("y", .Int)],
  .Expression (.StructLiteral "P" [("y", .Integer 2), ("x", .Integer 1)])]⟩

/-- `struct P { x: int, y: int };` followed by `P { x: 1, z: 2 }` — equal
field count, but `z` is not declared (for the type checker). -/
def c7CheckExtraProg : Program := ⟨[.StructDeclaration .Private "P" [("x", .Int), ("y", .Int)],
  .Expression (.StructLiteral "P" [("x", .Integer 1), ("z", .Integer 2)])]⟩

/-- The compiler state after compiling the expression `1` from a fresh
compiler (used to instantiate the C7 theorem). -/
def c7Cx : Compiler := ⟨⟨[.LoadConst 0], [0], [.Integer 1]⟩, [], 0, [], [], [], [], [], []⟩

/-- The compiler state after compiling `1` and then `2` from a fresh
compiler (used to instantiate the C7 theorem). -/
def c7Cy : Compiler :=
  ⟨⟨[.LoadConst 0, .LoadConst 1], [0, 0], [.Integer 1, .Integer 2]⟩, [], 0, [], [], [], [], [], []⟩

/-- `print(false && crash());` (no `crash` is ever defined). -/
def c8AndProg : Program := ⟨[.Print (.Binary (.Boolean false) .And
  (.Call (.Identifier "crash") []))]⟩

/-- `print(true || crash());`. -/
def c8OrProg : Program := ⟨[.Print (.Binary (.Boolean true) .Or
  (.Call (.Identifier "crash") []))]⟩

/-- `print(true && crash());` — here the right operand *is* executed. -/
def c8AndTrueProg : Program := ⟨[.Print (.Binary (.Boolean true) .And
  (.Call (.Identifier "crash") []))]⟩

/-- The compiler state after compiling `false` from a fresh compiler
(used to instantiate the C8 theorem). -/
def c8CA : Compiler := ⟨⟨[.LoadConst 0], [0], [.Boolean false]⟩, [], 0, [], [], [], [], [], []⟩

/-- The state after `false`, the `JumpIfFalse`/`Pop` pair, and `true`
(used to instantiate the C8 theorem). -/
def c8CB : Compiler :=
  ⟨⟨[.LoadConst 0, .JumpIfFalse 0, .Pop, .LoadConst 1], [0, 0, 0, 0],
    [.Boolean false, .Boolean true]⟩, [], 0, [], [], [], [], [], []⟩

/-- The compiler state after compiling `true` from a fresh compiler
(used to instantiate the C8 theorem). -/
def c8CA2 : Compiler := ⟨⟨[.LoadConst 0], [0], [.Boolean true]⟩, [], 0, [], [], [], [], [], []⟩

/-- The state after `true`, the `JumpIfTrue`/`Pop` pair, and `false`
(used to instantiate the C8 theorem). -/
def c8CB2 : Compiler :=
  ⟨⟨[.LoadConst 0, .JumpIfTrue 0, .Pop, .LoadConst 1], [0, 0, 0, 0],
    [.Boolean true, .Boolean false]⟩, [], 0, [], [], [], [], [], []⟩

/-- `while true { fn f() { break; } }` — a `break` inside a function body
that is itself inside a loop body. -/
def c10Prog : Program := ⟨[.While (.Boolean true)
  [.FnDeclaration .Private "f" [] none [.Break]]]⟩


/-! ## Helper lemmas -/

/-- Do-notation bind on `Res` is `Res.bind`. -/
@[simp] theorem Res.bind_eq (x : Res ε α) (f : α → Res ε β) :
    (x >>= f) = Res.bind x f := rfl

@[simp] theorem Res.pure_eq (a : α) : (pure a : Res ε α) = .ok a := rfl

@[simp] theorem Res.ok_bind (a : α) (f : α → Res ε β) :
    Res.bind (.ok a) f = f a := rfl

@[simp] theorem Res.err_bind (e : ε) (f : α → Res ε β) :
    Res.bind (.err e : Res ε α) f = .err e := rfl

@[simp] theorem Res.div_bind (f : α → Res ε β) :
    Res.bind (.div : Res ε α) f = .div := rfl

/-- `define` (always `Private`) never touches the module-export map. -/
theorem define_preserves_modules (st : SymbolTable) (name : String) (t : Ty)
    (m : Bool) : (st.define name t m).modules = st.modules := rfl

/-- The element of a concatenation at the boundary index. -/
theorem get?_append_length (l1 l2 : List α) : (l1 ++ l2).get? l1.length = l2.get? 0 := by
  induction l1 with
  | nil => rfl
  | cons x xs ih => simpa using ih

/-- Setting the element at the boundary index of a concatenation. -/
theorem set_append_length (l1 : List α) (x : α) (l2 : List α) (v : α) :
    (l1 ++ x :: l2).set l1.length v = l1 ++ v :: l2 := by
  induction l1 with
  | nil => rfl
  | cons y ys ih => simp [ih]

/-- Once `found_start` is set, `build_cycle_message` keeps the whole rest
of the stack. -/
theorem buildCycleAux_true (cur : String) (stack : List String) (acc : List String) :
    buildCycleAux cur true acc stack = acc ++ stack := by
  induction stack generalizing acc with
  | nil => simp [buildCycleAux]
  | cons m rest ih => simp [buildCycleAux, ih]

/-- The `found_start` loop keeps exactly the suffix of the stack starting
at the first entry equal to the current module. -/
theorem buildCycleAux_false (cur : String) (stack : List String) (acc : List String) :
    buildCycleAux cur false acc stack =
      acc ++ stack.dropWhile (fun m => !(m == cur)) := by
  induction stack generalizing acc with
  | nil => simp [buildCycleAux]
  | cons m rest ih =>
      by_cases h : m == cur
      · simp [buildCycleAux, h, List.dropWhile, buildCycleAux_true]
      · simp only [buildCycleAux, h, Bool.false_or, List.dropWhile]
        simp only [h, Bool.not_false, if_neg]
        simp [ih]

/-! ## C2 — module-loader stack on failure -/

/-- C2: the claim says any failing `load_module` call restores the
loading stack, leaving the loader reusable.  In the code nothing pops the
stack on the error paths: after a failed `load_module("m")` (module not
found) the name `m` is still on the loading stack, and a second
`load_module("m")` on the same loader fails with a spurious
`CircularDependency "m → m"` instead of repeating `ModuleNotFound`. -/
theorem c2_loading_stack_not_restored :
    c2First.1 = .error (.ModuleNotFound ("Module 'm' not found in search paths: []"))
    ∧ c2First.2.loadingStack = ["m"]
    ∧ (c2First.2.loadModule c2Env "m").1 =
        .error (.CircularDependency ("Circular dependency detected: m → m"))
    ∧ (c2First.2.loadModule c2Env "m").2.loadingStack = ["m"] :=
  ⟨rfl, rfl, rfl, rfl⟩

/-! ## C5 — struct literals vs. block braces -/

/-- C5 counterexample: the claim says that for `if c { … }` whose
condition ends in a bare identifier the parser parses `c` as the
condition and the `{` as the block start.  In the code `if_statement`
parses the condition expression *before* consuming `{`, and `primary`
treats an identifier followed by `{` as a struct literal, so
`if x { print(1); }` fails to parse: the `{` is consumed as a
struct-literal brace and `print` is rejected as a field name. -/
theorem c5_counterexample_if_identifier :
    Parser.parse 100 ⟨ifxTokens, 0⟩ [] =
      .err (.UnexpectedToken ("Expected field name") .Print) := rfl

/-- C5 (amended): struct-literal recognition applies in *every*
expression context.  The block `{` of `if`/`while` is consumed only after
the condition has been parsed, so a condition ending in a bare identifier
has its block brace consumed as a struct-literal opener and the statement
fails to parse (`if x { print(1); }` and `while x { print(1); }` are
unexpected-token errors; `if x { }` swallows `{ }` as the literal `x {}`
and then fails demanding another `{`); the recognition is unambiguous
only when the condition does not end in a bare identifier
(`if x > 10 { print(1); }` parses as claimed). -/
theorem c5_amended_struct_literal_ambiguity :
    Parser.parse 100 ⟨ifxTokens, 0⟩ [] =
      .err (.UnexpectedToken ("Expected field name") .Print)
    ∧ Parser.parse 100 ⟨whilexTokens, 0⟩ [] =
      .err (.UnexpectedToken ("Expected field name") .Print)
    ∧ Parser.parse 100 ⟨ifxEmptyTokens, 0⟩ [] =
      .err (.UnexpectedToken ("Expected '\x7b' after if condition") .EOF)
    ∧ Parser.parse 100 ⟨ifgtTokens, 0⟩ [] =
      .ok (⟨[.If (.Binary (.Identifier "x") .Greater (.Integer 10))
              [.Print (.Integer 1)] none]⟩, ⟨ifgtTokens, 11⟩) := by
  refine ⟨rfl, rfl, rfl, ?_⟩
  with_unfolding_all rfl

/-! ## C6 — scope-walk direction of `SymbolTable::get` -/

/-- C6 counterexample: the claim says that for a name bound in more than
one scope `get` returns the binding from the *outermost* scope.  Binding
`x : Int` in the outer scope and then `x : Bool` in a pushed inner scope,
`get` returns the `Bool` (innermost) binding: `scopes.iter().rev()` walks
the scope stack innermost-first. -/
theorem c6_counterexample_innermost_wins :
    ((SymbolTable.new.define ("x") .Int false).pushScope.define ("x") .Bool false).get
      ("x") = some ⟨.Bool, false, .Private, []⟩
    ∧ Ty.Bool ≠ Ty.Int :=
  ⟨rfl, nofun⟩

/-- C6 (amended): `SymbolTable::get` first consults the import table
(returning the imported symbol when its module and name resolve), and
otherwise walks the scope stack innermost-outermost, so a name bound in
several scopes resolves to the binding of the *innermost* enclosing
scope. -/
theorem c6_amended_get_order :
    (∀ (st : SymbolTable) (name : String) (mp : List String) (orig : String)
        (ms : ModuleSymbols) (sym : Symbol),
      alistGet st.importedSymbols name = some (mp, orig) →
      alistGet st.modules mp = some ms →
      alistGet ms.symbols orig = some sym →
      st.get name = some sym)
    ∧ (∀ (st : SymbolTable) (name : String) (sym : Symbol)
        (inner : List (String × Symbol)) (rest : List (List (String × Symbol))),
      alistGet st.importedSymbols name = none →
      st.scopes = inner :: rest →
      alistGet inner name = some sym →
      st.get name = some sym)
    ∧ ((SymbolTable.new.define ("x") .Int false).pushScope.define ("x") .Bool false).get
        ("x") = some ⟨.Bool, false, .Private, []⟩ := by
  refine ⟨?_, ?_, rfl⟩
  · intro st name mp orig ms sym h1 h2 h3
    simp [SymbolTable.get, h1, h2, h3]
  · intro st name sym inner rest h1 h2 h3
    simp [SymbolTable.get, h1, h2, scopesGet, h3]

/-- Witness for the hypotheses of `c6_amended_get_order` at concrete
inputs: an import table entry resolves through the module map, and an
inner-scope binding shadows an outer one. -/
theorem c6_amended_get_order_witness :
    (⟨[[("y", ⟨.Int, false, .Private, []⟩)]],
      [(["m"], ⟨[("y", ⟨.Bool, true, .Public, ["m"]⟩)]⟩)],
      [], [("y", (["m"], "y"))]⟩ : SymbolTable).get ("y") =
        some ⟨.Bool, true, .Public, ["m"]⟩
    ∧ (⟨[[("x", ⟨.Bool, false, .Private, []⟩)], [("x", ⟨.Int, false, .Private, []⟩)]],
        [], [], []⟩ : SymbolTable).get ("x") = some ⟨.Bool, false, .Private, []⟩ :=
  ⟨c6_amended_get_order.1 _ ("y") ["m"] ("y") ⟨[("y", ⟨.Bool, true, .Public, ["m"]⟩)]⟩
      ⟨.Bool, true, .Public, ["m"]⟩ rfl rfl rfl,
   c6_amended_get_order.2.1 _ ("x") ⟨.Bool, false, .Private, []⟩
      [("x", ⟨.Bool, false, .Private, []⟩)] [[("x", ⟨.Int, false, .Private, []⟩)]]
      rfl rfl rfl⟩


/-! ## C3 — circular-dependency detection -/

/-- C3 counterexample: the claim says that for a search path with `a`
importing `b` importing `a`, loading `a` through the pipeline fails with
`CircularDependency` naming both.  In the code neither `load_module` nor
the driver recurses into a loaded module's own `mod` references
(`resolve_module_references` only replaces the *top-level* references of
the entry program), so loading `a` succeeds and `b`'s reference is left
unresolved inside the new module declaration — no cycle is ever
detected. -/
theorem c3_counterexample_pipeline_no_cycle :
    resolveModuleReferences c3Env c3Entry =
      .ok ⟨[.ModuleDeclaration "a" [.ModuleReference "b" false] false]⟩ := by
  with_unfolding_all rfl

/-- C3 (amended): `load_module(name)` fails with `CircularDependency`
exactly when `name` is uncached and already on the loading stack (the
cache is consulted first), and the reported cycle is the suffix of the
loading stack starting at the first matching entry, with `name` appended.
However, module loading never recurses into a loaded module's `mod`
references and the driver resolves only the entry program's top-level
references, so for `a` importing `b` importing `a`, loading `a` through
the pipeline succeeds (with `b`'s reference left unresolved) instead of
reporting a cycle. -/
theorem c3_amended_cycle_detection :
    (∀ (env : ModuleEnv) (l : ModuleLoader) (name : String),
      alistGet l.loadedModules name = none →
      l.loadingStack.contains name = true →
      (l.loadModule env name).1 =
        .error (.CircularDependency (l.buildCycleMessage name)))
    ∧ (∀ (l : ModuleLoader) (name : String),
      l.buildCycleMessage name = "Circular dependency detected: " ++
        String.intercalate " → "
          (l.loadingStack.dropWhile (fun m => !(m == name)) ++ [name]))
    ∧ (∀ (env : ModuleEnv) (l : ModuleLoader) (name msg : String),
      l.loadingStack.contains name = false →
      (l.loadModule env name).1 ≠ .error (.CircularDependency msg))
    ∧ resolveModuleReferences c3Env c3Entry =
        .ok ⟨[.ModuleDeclaration "a" [.ModuleReference "b" false] false]⟩ := by
  refine ⟨?_, ?_, ?_, by with_unfolding_all rfl⟩
  · intro env l name h1 h2
    simp only [ModuleLoader.loadModule, h1, h2]
    simp
  · intro l name
    simp [ModuleLoader.buildCycleMessage, buildCycleAux_false]
  · intro env l name msg h
    simp only [ModuleLoader.loadModule]
    cases hc : alistGet l.loadedModules name with
    | some p => simp
    | none =>
        simp only [h, Bool.false_eq_true, if_false]
        cases henv : env name with
        | error e => cases e <;> simp [EnvError.toLoadError]
        | ok p => simp

/-- Witness for the hypotheses of `c3_amended_cycle_detection`: a loader
whose stack already holds `a → b` reports the full cycle when `a` is
requested again, and a fresh loader never reports a cycle. -/
theorem c3_amended_cycle_detection_witness :
    ((⟨[], ["a", "b"], []⟩ : ModuleLoader).loadModule c3Env "a").1 =
      .error (.CircularDependency ("Circular dependency detected: a → b → a"))
    ∧ (ModuleLoader.new.loadModule c3Env "a").1 ≠
      .error (.CircularDependency ("Circular dependency detected: a → a")) := by
  constructor
  · have h := c3_amended_cycle_detection.1 c3Env ⟨[], ["a", "b"], []⟩ ("a") rfl rfl
    rw [h]
    rfl
  · exact c3_amended_cycle_detection.2.2.1 c3Env ModuleLoader.new ("a")
      ("Circular dependency detected: a → a") rfl

/-! ## C1 — visibility of private symbols -/

/-- C1 counterexample: the claim says every program that imports a
non-`Public` symbol from outside its defining module is rejected with a
visibility error.  The program `mod math; use math::secret;` (with
`secret` private in `math`) imports such a symbol and passes the type
checker: `import_symbol` silently does nothing when the module does not
export the requested name. -/
theorem c1_counterexample_private_import_accepted :
    (checkProgram 50 c1UseOnlyProg).isOk = true := by
  with_unfolding_all rfl

/-- C1 (amended): only `Public` symbols are registered in the module
export map, so importing a non-`Public` symbol is a silent no-op on the
symbol table and a `Path` to it is reported as *not found* rather than as
a visibility violation.  The S6 program with `secret` is rejected, but
with `UndefinedFunction("secret")` at the call site (the import recorded
nothing), not with a visibility error at the `use`; the `sq` variant of
S6 passes. -/
theorem c1_amended_private_symbols_unexported :
    (∀ (st : SymbolTable) (name : String) (t : Ty) (m : Bool),
      (st.defineWithVisibility name t m .Private).modules = st.modules)
    ∧ (∀ (st : SymbolTable) (mp : List String) (name : String) (ms : ModuleSymbols),
      alistGet st.modules mp = some ms → alistGet ms.symbols name = none →
      st.importSymbol mp name = st)
    ∧ (∀ (st : SymbolTable) (mp : List String) (name : String),
      alistGet st.modules mp = none → st.importSymbol mp name = st)
    ∧ checkProgram 50 c1SecretProg = .err (.UndefinedFunction "secret")
    ∧ checkProgram 50 c1PathProg = .err (.UndefinedVariable "math::secret not found")
    ∧ (checkProgram 50 c1SqProg).isOk = true := by
  refine ⟨?_, ?_, ?_, by with_unfolding_all rfl, by with_unfolding_all rfl,
    by with_unfolding_all rfl⟩
  · intro st name t m
    rfl
  · intro st mp name ms h1 h2
    simp [SymbolTable.importSymbol, h1, h2]
  · intro st mp name h
    simp [SymbolTable.importSymbol, h]

/-- Witness for the hypotheses of `c1_amended_private_symbols_unexported`
at a concrete symbol table: importing a name the module does not export,
and importing from an unknown module, both leave the table unchanged. -/
theorem c1_amended_private_symbols_unexported_witness :
    ((⟨[[]], [(["math"], ⟨[("sq", ⟨.Int, false, .Public, ["math"]⟩)]⟩)], [], []⟩ :
        SymbolTable).importSymbol ["math"] ("secret")) =
      ⟨[[]], [(["math"], ⟨[("sq", ⟨.Int, false, .Public, ["math"]⟩)]⟩)], [], []⟩
    ∧ (SymbolTable.new.importSymbol ["nosuch"] ("f")) = SymbolTable.new :=
  ⟨c1_amended_private_symbols_unexported.2.1 _ ["math"] ("secret")
      ⟨[("sq", ⟨.Int, false, .Public, ["math"]⟩)]⟩ rfl rfl,
   c1_amended_private_symbols_unexported.2.2.1 SymbolTable.new ["nosuch"] ("f") rfl⟩


/-! ## C9 — `pub let`/`pub var` -/

/-- C9: the parser accepts `pub` immediately before `let`/`var` (its
"pub without a following declaration" error fires only when none of the
declaration keywords follows, e.g. on `pub ;`), and the resulting
`VarDeclaration` carries no visibility — `pub let x = 1;` parses to the
very same node as `let x = 1;`.  The type checker records every variable
binding through `define`, i.e. as `Private`, never touching the module
export map, so a top-level `pub let` inside a module exports nothing:
`mod m { pub let x = 1; }` checks with an empty export map. -/
theorem c9_pub_let_never_exported :
    Parser.parse 100 ⟨publetTokens, 0⟩ [] =
      .ok (⟨[.VarDeclaration "x" false none (some (.Integer 1))]⟩, ⟨publetTokens, 6⟩)
    ∧ Parser.parse 100 ⟨letTokens, 0⟩ [] =
      .ok (⟨[.VarDeclaration "x" false none (some (.Integer 1))]⟩, ⟨letTokens, 5⟩)
    ∧ Parser.parse 100 ⟨pubvarTokens, 0⟩ [] =
      .ok (⟨[.VarDeclaration "y" true none none]⟩, ⟨pubvarTokens, 4⟩)
    ∧ Parser.parse 100 ⟨pubOnlyTokens, 0⟩ [] =
      .err (.UnexpectedToken ("fn, struct, type, or mod after 'pub'") .Semicolon)
    ∧ (∀ (fuel : Nat) (tc : TypeChecker) (name : String) (m : Bool) (ann : Option Ty)
        (init : Option Expr) (tc2 : TypeChecker),
      TypeChecker.checkStatement fuel tc (.VarDeclaration name m ann init) = .ok tc2 →
      tc2.symbolTable.modules = tc.symbolTable.modules)
    ∧ Parser.parse 100 ⟨modPubLetTokens, 0⟩ [] =
      .ok (⟨[.ModuleDeclaration "m"
              [.VarDeclaration "x" false none (some (.Integer 1))] false]⟩,
        ⟨modPubLetTokens, 10⟩)
    ∧ resModules (checkProgram 50
        ⟨[.ModuleDeclaration "m"
            [.VarDeclaration "x" false none (some (.Integer 1))] false]⟩) = some [] := by
  refine ⟨by with_unfolding_all rfl, by with_unfolding_all rfl, by with_unfolding_all rfl,
    rfl, ?_, by with_unfolding_all rfl, by with_unfolding_all rfl⟩
  intro fuel tc name m ann init tc2 h
  cases fuel with
  | zero => simp [TypeChecker.checkStatement] at h
  | succ n =>
      cases init with
      | none =>
          simp only [TypeChecker.checkStatement, Res.bind_eq, Res.pure_eq,
            Res.ok_bind] at h
          cases ann with
          | none =>
              cases h
              rfl
          | some annotated =>
              dsimp only at h
              cases hR1 : resolveTypeR n tc annotated with
              | div => rw [hR1] at h; simp at h
              | err e => rw [hR1] at h; simp at h
              | ok ra =>
                  rw [hR1] at h
                  simp only [Res.ok_bind] at h
                  cases hR2 : resolveTypeR n tc Ty.Null with
                  | div => rw [hR2] at h; simp at h
                  | err e => rw [hR2] at h; simp at h
                  | ok rb =>
                      rw [hR2] at h
                      simp only [Res.ok_bind, Option.isSome_none, Bool.false_eq_true,
                        if_false, Res.pure_eq] at h
                      cases h
                      rfl
      | some i =>
          simp only [TypeChecker.checkStatement, Res.bind_eq, Res.pure_eq] at h
          cases hI : TypeChecker.inferType n tc i with
          | div => rw [hI] at h; simp at h
          | err e => rw [hI] at h; simp at h
          | ok actualType =>
              rw [hI] at h
              simp only [Res.ok_bind] at h
              cases ann with
              | none =>
                  simp only [Res.pure_eq, Res.ok_bind] at h
                  cases h
                  rfl
              | some annotated =>
                  dsimp only at h
                  cases hR1 : resolveTypeR n tc annotated with
                  | div => rw [hR1] at h; simp at h
                  | err e => rw [hR1] at h; simp at h
                  | ok ra =>
                      rw [hR1] at h
                      simp only [Res.ok_bind] at h
                      cases hR2 : resolveTypeR n tc actualType with
                      | div => rw [hR2] at h; simp at h
                      | err e => rw [hR2] at h; simp at h
                      | ok rb =>
                          rw [hR2] at h
                          simp only [Res.ok_bind, Option.isSome_some, if_true] at h
                          split at h <;>
                            first
                              | (simp only [Res.err_bind] at h
                                 exact Res.noConfusion h)
                              | (simp only [Res.pure_eq, Res.ok_bind] at h
                                 cases h
                                 rfl)

/-- Witness for the hypotheses of the variable-binding conjunct of
`c9_pub_let_never_exported`: checking `let x = 1;` from a fresh checker
succeeds and leaves the (empty) module map unchanged. -/
theorem c9_pub_let_never_exported_witness :
    (match TypeChecker.checkStatement 10 TypeChecker.new
        (.VarDeclaration "x" false none (some (.Integer 1))) with
      | .ok tc2 => tc2.symbolTable.modules = TypeChecker.new.symbolTable.modules
      | _ => False) := by
  have h : TypeChecker.checkStatement 10 TypeChecker.new
      (.VarDeclaration "x" false none (some (.Integer 1))) =
      .ok { TypeChecker.new with symbolTable :=
        TypeChecker.new.symbolTable.define ("x") .Int false } := by
    with_unfolding_all rfl
  rw [h]
  exact c9_pub_let_never_exported.2.2.2.2.1 10 TypeChecker.new ("x") false none
    (some (.Integer 1)) _ h

/-! ## C10 — `break` in a function inside a loop -/

/-- C10: a `break` (or `continue`) in the body of a `fn` declared inside
a loop body passes the type checker — `loop_depth` is incremented around
`while` bodies and never reset on entering a function body — while the
bytecode compiler rejects the same statement with `InvalidBreakContinue`,
because `compile_function` compiles every function body in a fresh
sub-compiler whose `loop_breaks`/`loop_starts` stacks start empty.
Concretely, `while true { fn f() { break; } }` checks but fails to
compile. -/
theorem c10_break_in_fn_inside_loop :
    (∀ (n : Nat) (c : Compiler) (name : String) (rest : List Stmt),
      Compiler.compileFunction (n + 3) c name [] (.Break :: rest) =
        .err .InvalidBreakContinue)
    ∧ (∀ (n : Nat) (c : Compiler) (name : String) (rest : List Stmt),
      Compiler.compileFunction (n + 3) c name [] (.Continue :: rest) =
        .err .InvalidBreakContinue)
    ∧ (∀ (n : Nat) (tc : TypeChecker) (vis : Visibility) (name : String),
      tc.loopDepth ≠ 0 →
      (TypeChecker.checkStatement (n + 3) tc
        (.FnDeclaration vis name [] none [.Break])).isOk = true)
    ∧ (checkProgram 50 c10Prog).isOk = true
    ∧ compileProgram 50 c10Prog = .err .InvalidBreakContinue := by
  refine ⟨?_, ?_, ?_, by with_unfolding_all rfl, by with_unfolding_all rfl⟩
  · intro n c name rest
    simp [Compiler.compileFunction, Compiler.addParamLocals, Compiler.compileStatements,
      Compiler.compileStatement, Compiler.new, Compiler.beginScope]
  · intro n c name rest
    simp [Compiler.compileFunction, Compiler.addParamLocals, Compiler.compileStatements,
      Compiler.compileStatement, Compiler.new, Compiler.beginScope]
  · intro n tc vis name h
    have hb : (tc.loopDepth == 0) = false := by
      simpa using h
    simp [TypeChecker.checkStatement, TypeChecker.check, TypeChecker.defineParams,
      hb, Res.isOk]

/-- Witness for the hypothesis of the checker conjunct of
`c10_break_in_fn_inside_loop` at a concrete checker whose `loop_depth`
is 1. -/
theorem c10_break_in_fn_inside_loop_witness :
    (TypeChecker.checkStatement 3 { TypeChecker.new with loopDepth := 1 }
      (.FnDeclaration .Private "f" [] none [.Break])).isOk = true :=
  c10_break_in_fn_inside_loop.2.2.1 0 { TypeChecker.new with loopDepth := 1 }
    .Private ("f") (by decide)


/-! ## C4 — cyclic type aliases -/

/-- On a symbol table where `A ↦ Named B ↦ Named A`, the resolution
recursion exceeds every depth bound. -/
theorem resolveTypeF_cycle (tc : TypeChecker) (sA sB : Symbol)
    (hA : tc.symbolTable.get ("A") = some sA) (hA2 : sA.symbolType = .Named "B")
    (hB : tc.symbolTable.get ("B") = some sB) (hB2 : sB.symbolType = .Named "A") :
    ∀ k, resolveTypeF k tc (.Named "A") = none ∧ resolveTypeF k tc (.Named "B") = none := by
  intro k
  induction k with
  | zero => exact ⟨rfl, rfl⟩
  | succ n ih =>
      constructor
      · simp only [resolveTypeF, hA, hA2]
        exact ih.2
      · simp only [resolveTypeF, hB, hB2]
        exact ih.1

/-- A variable declaration whose annotation fails to resolve within the
given depth exhausts the checker's budget too. -/
theorem checkVarDecl_unresolved_annotation (q : Nat) (tc : TypeChecker) (name : String)
    (mu : Bool) (t : Ty) (h : resolveTypeF q tc t = none) :
    TypeChecker.checkStatement (q + 1) tc
      (.VarDeclaration name mu (some t) (some (.Integer 1))) = .div := by
  cases q with
  | zero => rfl
  | succ r =>
      simp only [TypeChecker.checkStatement, TypeChecker.inferType, Res.bind_eq,
        Res.ok_bind]
      simp [resolveTypeR, h]

/-- C4: the claim says `resolve_type` detects alias cycles via
bounded-depth recursion with a seen set and is total.  The code has no
depth bound and no seen set: registering `type A = B; type B = A;`
succeeds (no cycle check happens at declaration time), and then checking
`let x: A = 1;` — which calls `resolve_type` on `Named A` — recurses
`A → B → A → …` past *every* depth bound: the fuel-indexed model returns
`div` for all fuel, i.e. the Rust original never returns (it dies by
stack overflow). -/
theorem c4_resolve_type_unbounded :
    (checkProgram 20 c4AliasProg).isOk = true
    ∧ (∀ fuel, checkProgram fuel c4Prog = .div)
    ∧ (∀ fuel, resolveTypeF fuel c4Checker (.Named "A") = none) := by
  refine ⟨by with_unfolding_all rfl, ?_, ?_⟩
  · intro fuel
    match fuel with
    | 0 => rfl
    | 1 => rfl
    | 2 => rfl
    | 3 => rfl
    | (q + 4) =>
        have e1 : checkProgram (q + 4) c4Prog =
            Res.bind (TypeChecker.checkStatement (q + 1) c4Checker
              (.VarDeclaration "x" false (some (.Named "A")) (some (.Integer 1))))
              (fun tc => TypeChecker.check (q + 1) tc []) := by
          with_unfolding_all rfl
        have hres : resolveTypeF q c4Checker (.Named "A") = none :=
          (resolveTypeF_cycle c4Checker ⟨.Named "B", false, .Private, []⟩
            ⟨.Named "A", false, .Private, []⟩ rfl rfl rfl rfl q).1
        rw [e1, checkVarDecl_unresolved_annotation q c4Checker ("x") false
          (.Named "A") hres]
        rfl
  · intro fuel
    exact (resolveTypeF_cycle c4Checker ⟨.Named "B", false, .Private, []⟩
      ⟨.Named "A", false, .Private, []⟩ rfl rfl rfl rfl fuel).1


/-! ## C7 — struct literal compilation -/

/-- C7 counterexample: `struct P { x: int }` with the literal
`P { x: 1, z: 2 }` — `z` is not a declared field, yet the compiler
accepts the program.  The emitted chunk shows the provided field `z` is
silently ignored: its value `2` never even enters the constant pool, and
`NewStruct 1` is emitted for the single *declared* field.  The claim
says an unrecognised provided field is a compile error. -/
theorem c7_counterexample_extra_field_ignored :
    compileProgram 50 c7ExtraProg =
      .ok ⟨[.LoadConst 0, .LoadConst 1, .NewStruct 1, .Pop, .Halt],
           [0, 0, 0, 0, 0], [.Integer 1, .String "P"]⟩ := by
  with_unfolding_all rfl

/-- C7 amended: the compiler walks the *declared* field list in canonical
order and compiles the matching provided expression for each — so for a
declaration `x, y` and a literal providing `y` then `x`, the code of `x`'s
expression is emitted before the code of `y`'s (first conjunct); a
declared field with no matching provided expression is an
`UndefinedField` compile error (second conjunct); concretely,
`struct P { x: int, y: int }; P { y: 2, x: 1 }` compiles to code loading
`1` before `2` (third conjunct).  A *provided* field that matches no
declared field is ignored by the compiler (see the counterexample); it is
the type checker that rejects it (fourth conjunct). -/
theorem c7_amended_struct_literal_canonical_order (j : Nat) (c : Compiler) (ex ey : Expr)
    (cx cy : Compiler) (s : String) (flds : List (String × Expr))
    (df : StructField) (rest : List StructField)
    (hx : Compiler.compileExpression (j + 2) c ex = .ok cx)
    (hy : Compiler.compileExpression (j + 1) cx ey = .ok cy)
    (hm : flds.find? (fun f => f.1 == StructField.name df) = none) :
    (Compiler.compileStructFields (j + 3) c ("P") [("y", ey), ("x", ex)]
        [("x", Ty.Int), ("y", Ty.Int)] = .ok cy)
    ∧ (Compiler.compileStructFields (j + 1) c s flds (df :: rest) =
        .err (.UndefinedField s (StructField.name df)))
    ∧ compileProgram 50 c7ReorderProg =
        .ok ⟨[.LoadConst 0, .LoadConst 1, .LoadConst 2, .NewStruct 2, .Pop, .Halt],
             [0, 0, 0, 0, 0, 0], [.Integer 1, .Integer 2, .String "P"]⟩
    ∧ checkProgram 50 c7CheckExtraProg =
        .err (.UndefinedVariable ("field z not found in struct P")) := by
  refine ⟨?_, ?_, ?_, ?_⟩
  · simp only [Compiler.compileStructFields, List.find?, StructField.name]
    simp only [show (("y" : String) == "x") = false from rfl,
      show (("x" : String) == "x") = true from rfl,
      show (("y" : String) == "y") = true from rfl]
    simp only [Option.map, Res.bind_eq, hx, Res.ok_bind, hy]
  · simp [Compiler.compileStructFields, hm]
  · with_unfolding_all rfl
  · with_unfolding_all rfl

/-- The C7 theorem instantiated: compiling `1` then `2` from a fresh
compiler, and the missing-field error on an empty provided list. -/
theorem c7_amended_struct_literal_canonical_order_witness :
    (Compiler.compileExpression 2 Compiler.new (.Integer 1) = .ok c7Cx)
    ∧ (Compiler.compileExpression 1 c7Cx (.Integer 2) = .ok c7Cy)
    ∧ ((([] : List (String × Expr)).find?
        (fun f => f.1 == StructField.name (("y", Ty.Int) : StructField))) = none)
    ∧ (Compiler.compileStructFields 3 Compiler.new ("P")
        [("y", .Integer 2), ("x", .Integer 1)] [("x", Ty.Int), ("y", Ty.Int)] = .ok c7Cy) := by
  have main := c7_amended_struct_literal_canonical_order 0 Compiler.new (.Integer 1)
    (.Integer 2) c7Cx c7Cy ("S") [] (("y", Ty.Int) : StructField) []
    (by with_unfolding_all rfl) (by with_unfolding_all rfl) rfl
  exact ⟨by with_unfolding_all rfl, by with_unfolding_all rfl, rfl, main.1⟩


/-! ## C8 — short-circuit `&&` / `||` -/

/-- `Compiler::emit` appends exactly one instruction. -/
theorem emit_chunk_len (c : Compiler) (op : OpCode) (l : Nat) :
    (c.emit op l).chunk.len = c.chunk.len + 1 := by
  simp [Compiler.emit, Chunk.write, Chunk.len]

/-- One unfolding step of the `&&` arm of `compile_expression`. -/
theorem compileExpression_and_step (fuel : Nat) (c : Compiler) (a b : Expr) :
    Compiler.compileExpression (fuel + 1) c (.Binary a .And b) =
      (Compiler.compileExpression fuel c a).bind (fun c1 =>
        (Compiler.compileExpression fuel ((c1.emit (.JumpIfFalse 0) 0).emit .Pop 0) b).bind
          (fun c2 => .ok (c2.patchJump ((c1.emit (.JumpIfFalse 0) 0).chunk.len - 1)))) := by
  with_unfolding_all rfl

/-- One unfolding step of the `||` arm of `compile_expression`. -/
theorem compileExpression_or_step (fuel : Nat) (c : Compiler) (a b : Expr) :
    Compiler.compileExpression (fuel + 1) c (.Binary a .Or b) =
      (Compiler.compileExpression fuel c a).bind (fun c1 =>
        (Compiler.compileExpression fuel ((c1.emit (.JumpIfTrue 0) 0).emit .Pop 0) b).bind
          (fun c2 => .ok (c2.patchJump ((c1.emit (.JumpIfTrue 0) 0).chunk.len - 1)))) := by
  with_unfolding_all rfl

/-- C8: compiling `a && b` emits `a`'s code, then a `JumpIfFalse`
placeholder and a `Pop`, then `b`'s code, and patches the placeholder to
target the instruction immediately after `b`'s code (the current chunk
end, whose index is `a`'s code length plus `b`'s code length plus 2);
dually `a || b` with `JumpIfTrue`.  Concretely, `print(false && crash())`
prints `false` and `print(true || crash())` prints `true` without ever
resolving `crash`, while `print(true && crash())` reaches the call and
fails with `UndefinedGlobal crash`. -/
theorem c8_short_circuit_jump_patch_pop (j : Nat)
    (c : Compiler) (a b : Expr) (cA cB : Compiler) (codeA codeB : List OpCode)
    (c2 : Compiler) (a2 b2 : Expr) (cA2 cB2 : Compiler) (codeA2 codeB2 : List OpCode)
    (hA : Compiler.compileExpression (j + 1) c a = .ok cA)
    (hAcode : cA.chunk.code = c.chunk.code ++ codeA)
    (hB : Compiler.compileExpression (j + 1) ((cA.emit (.JumpIfFalse 0) 0).emit .Pop 0) b = .ok cB)
    (hBcode : cB.chunk.code = cA.chunk.code ++ [OpCode.JumpIfFalse 0, OpCode.Pop] ++ codeB)
    (hA2 : Compiler.compileExpression (j + 1) c2 a2 = .ok cA2)
    (hAcode2 : cA2.chunk.code = c2.chunk.code ++ codeA2)
    (hB2 : Compiler.compileExpression (j + 1) ((cA2.emit (.JumpIfTrue 0) 0).emit .Pop 0) b2 = .ok cB2)
    (hBcode2 : cB2.chunk.code = cA2.chunk.code ++ [OpCode.JumpIfTrue 0, OpCode.Pop] ++ codeB2) :
    (Compiler.compileExpression (j + 2) c (.Binary a .And b) = .ok (cB.patchJump cA.chunk.len))
    ∧ ((cB.patchJump cA.chunk.len).chunk.code =
        c.chunk.code ++ codeA ++ [OpCode.JumpIfFalse cB.chunk.len, OpCode.Pop] ++ codeB)
    ∧ (cB.chunk.len = c.chunk.code.length + codeA.length + (2 + codeB.length))
    ∧ (Compiler.compileExpression (j + 2) c2 (.Binary a2 .Or b2) = .ok (cB2.patchJump cA2.chunk.len))
    ∧ ((cB2.patchJump cA2.chunk.len).chunk.code =
        c2.chunk.code ++ codeA2 ++ [OpCode.JumpIfTrue cB2.chunk.len, OpCode.Pop] ++ codeB2)
    ∧ compileAndRun 50 50 c8AndProg = some (.ok ["false"])
    ∧ compileAndRun 50 50 c8OrProg = some (.ok ["true"])
    ∧ compileAndRun 50 50 c8AndTrueProg = some (.err (.UndefinedGlobal "crash")) := by
  have lenA : (cA.emit (.JumpIfFalse 0) 0).chunk.len - 1 = cA.chunk.len := by
    simp [emit_chunk_len]
  have lenA2 : (cA2.emit (.JumpIfTrue 0) 0).chunk.len - 1 = cA2.chunk.len := by
    simp [emit_chunk_len]
  have hgetF : cB.chunk.code.get? cA.chunk.code.length = some (OpCode.JumpIfFalse 0) := by
    rw [hBcode]
    simpa using get?_append_length cA.chunk.code (OpCode.JumpIfFalse 0 :: OpCode.Pop :: codeB)
  have hgetT : cB2.chunk.code.get? cA2.chunk.code.length = some (OpCode.JumpIfTrue 0) := by
    rw [hBcode2]
    simpa using get?_append_length cA2.chunk.code (OpCode.JumpIfTrue 0 :: OpCode.Pop :: codeB2)
  refine ⟨?_, ?_, ?_, ?_, ?_, ?_, ?_, ?_⟩
  · rw [compileExpression_and_step, hA, Res.ok_bind, hB, Res.ok_bind, lenA]
  · simp only [Compiler.patchJump, hgetF, Chunk.len]
    rw [hBcode]
    simp only [List.append_assoc, List.cons_append, List.nil_append]
    rw [set_append_length]
    rw [hAcode]
    simp [List.append_assoc]
  · rw [Chunk.len, hBcode, hAcode]
    simp [List.length_append]
    omega
  · rw [compileExpression_or_step, hA2, Res.ok_bind, hB2, Res.ok_bind, lenA2]
  · simp only [Compiler.patchJump, hgetT, Chunk.len]
    rw [hBcode2]
    simp only [List.append_assoc, List.cons_append, List.nil_append]
    rw [set_append_length]
    rw [hAcode2]
    simp [List.append_assoc]
  · with_unfolding_all rfl
  · with_unfolding_all rfl
  · with_unfolding_all rfl

/-- The C8 theorem instantiated at `false && true` and `true || false`
from a fresh compiler. -/
theorem c8_short_circuit_jump_patch_pop_witness :
    (Compiler.compileExpression 1 Compiler.new (.Boolean false) = .ok c8CA)
    ∧ (c8CA.chunk.code = Compiler.new.chunk.code ++ [OpCode.LoadConst 0])
    ∧ (Compiler.compileExpression 1 ((c8CA.emit (.JumpIfFalse 0) 0).emit .Pop 0)
        (.Boolean true) = .ok c8CB)
    ∧ (c8CB.chunk.code =
        c8CA.chunk.code ++ [OpCode.JumpIfFalse 0, OpCode.Pop] ++ [OpCode.LoadConst 1])
    ∧ (Compiler.compileExpression 2 Compiler.new
        (.Binary (.Boolean false) .And (.Boolean true)) = .ok (c8CB.patchJump c8CA.chunk.len))
    ∧ (Compiler.compileExpression 2 Compiler.new
        (.Binary (.Boolean true) .Or (.Boolean false)) = .ok (c8CB2.patchJump c8CA2.chunk.len)) := by
  have main := c8_short_circuit_jump_patch_pop 0 Compiler.new (.Boolean false) (.Boolean true)
    c8CA c8CB [OpCode.LoadConst 0] [OpCode.LoadConst 1]
    Compiler.new (.Boolean true) (.Boolean false) c8CA2 c8CB2
    [OpCode.LoadConst 0] [OpCode.LoadConst 1]
    (by with_unfolding_all rfl) (by with_unfolding_all rfl)
    (by with_unfolding_all rfl) (by with_unfolding_all rfl)
    (by with_unfolding_all rfl) (by with_unfolding_all rfl)
    (by with_unfolding_all rfl) (by with_unfolding_all rfl)
  exact ⟨by with_unfolding_all rfl, by with_unfolding_all rfl, by with_unfolding_all rfl,
    by with_unfolding_all rfl, main.1, main.2.2.2.1⟩

end ZeroLang
